import Mathlib

/-!
Shallow embedding of WinsyncLoader.cpp (repository mnooner256/Winsync).

The program is a native launcher: find_winsync scans the registry key
HKLM\SOFTWARE\Python\PythonCore (falling back to the Wow6432Node variant)
for a Python install whose PythonPath contains a site-packages\winsync
directory, and returns that install's InstallPath value; _tWinMain then
builds the command line InstallPath ++ "python.exe" ++ " -m winsync.run",
spawns it with CreateProcess (working directory = InstallPath), blocks on
WaitForSingleObject with an INFINITE timeout, and closes the two handles.
Every OS interaction is modelled explicitly; each run also produces a
trace of the operations performed, so that access rights, buffer
capacities and operation ordering are provable properties of runs.

Modelling conventions:
- strings stand for TCHAR buffers; capacities count characters including
  the terminating null, so a bounded copy of source s into a buffer of
  capacity cap succeeds exactly when s.length + 1 <= cap;
- the secure CRT functions (grouped under tcscpy_s and tcscat_s) invoke
  the invalid parameter handler when the source does not fit, which
  terminates the process; this is the Outcome.crtAbort case;
- RegGetValue takes the offered buffer size and writes back the size of
  the stored data on success (and on ERROR_MORE_DATA); on other failures
  it leaves the size parameter unchanged;
- RegEnumKeyEx is modelled by indexing the enumeration-ordered subkey
  list; past the end it returns the environment's end-of-enumeration
  code (ERROR_NO_MORE_ITEMS on real systems, kept parametric so the
  defensive branch of the source is covered).
-/

namespace WinsyncLoader

/-- MAX_PATH, the capacity of every path buffer in the program. -/
def MAX_PATH : Nat := 260

def ERROR_SUCCESS : Nat := 0

def ERROR_FILE_NOT_FOUND : Nat := 2

def ERROR_MORE_DATA : Nat := 234

def ERROR_NO_MORE_ITEMS : Nat := 259

def KEY_READ : Nat := 131097

def KEY_ENUMERATE_SUB_KEYS : Nat := 8

def WAIT_OBJECT_0 : Nat := 0

def WAIT_ABANDONED : Nat := 128

def WAIT_TIMEOUT : Nat := 258

def WAIT_FAILED : Nat := 4294967295

/-- Result of a registry value read: the stored string or an error code. -/
inductive RegVal where
  | ok (v : String)
  | err (c : Nat)
deriving DecidableEq, Repr

/-- Bounded string copy; models _tcscpy_s with the given capacity.
Returns none when the source does not fit, in which case the CRT
invalid parameter handler terminates the process. -/
def tcscpy_s (cap : Nat) (src : String) : Option String :=
  if src.length + 1 ≤ cap then some src else none

/-- Bounded string concatenation; models _tcscat_s with the given
capacity. Returns none when the result does not fit. -/
def tcscat_s (cap : Nat) (dst src : String) : Option String :=
  if dst.length + src.length + 1 ≤ cap then some (dst ++ src) else none

/-- Splits a character list at every semicolon. -/
def tokSplit : List Char → List (List Char)
  | [] => [[]]
  | c :: cs =>
    if c = ';' then [] :: tokSplit cs
    else
      match tokSplit cs with
      | t :: ts => (c :: t) :: ts
      | [] => [[c]]

/-- Token list produced by repeated _tcstok_s calls with delimiter ";":
the semicolon-separated pieces with empty pieces skipped. -/
def tcstok (s : String) : List String :=
  ((tokSplit s.toList).map (fun l => String.mk l)).filter (fun t => t ≠ "")

/-- Registry environment: RegOpenKeyEx result codes for key paths under
HKEY_LOCAL_MACHINE, the enumeration-ordered subkeys of each root, the
code RegEnumKeyEx yields past the last subkey, and the default REG_SZ
value stored at each root-relative path. -/
structure Reg where
  openKey : String → Nat
  subkeys : String → List String
  endEnumCode : String → Nat
  getValue : String → String → RegVal

/-- RegGetValue on root\name with an offered buffer size of cap
characters: returns the result together with the value the call stores
back into the size parameter. -/
def regGetValue (reg : Reg) (rootKey name : String) (cap : Nat) :
    RegVal × Nat :=
  match reg.getValue rootKey name with
  | .err c => (.err c, cap)
  | .ok v =>
    if v.length + 1 ≤ cap then (.ok v, v.length + 1)
    else (.err ERROR_MORE_DATA, v.length + 1)

/-- RegEnumKeyEx on the opened root at the given index with a name
buffer of cap characters. -/
def regEnumKey (reg : Reg) (rootKey : String) (idx cap : Nat) : RegVal :=
  match (reg.subkeys rootKey).get? idx with
  | none => .err (reg.endEnumCode rootKey)
  | some k => if k.length + 1 ≤ cap then .ok k else .err ERROR_MORE_DATA

/-- Result of find_winsync: the InstallPath written to the out
parameter on a normal return, or the way the process terminated
(error_code_exit shows a message box and calls ExitProcess with the
error code; msg_exit shows a message box and calls ExitProcess 255;
crtAbort is termination by the CRT invalid parameter handler). -/
inductive Outcome where
  | found (path : String)
  | exitCode (code : Nat)
  | msgExit (msg : String)
  | crtAbort
deriving DecidableEq, Repr

/-- Operations a run performs, recorded in order. The first group are
the calls the program actually makes; regSetV and fileWrite are never
emitted and exist so that being a write is a non-trivial predicate. -/
inductive Op where
  | regOpen (key : String) (sam : Nat) (ret : Nat)
  | regEnum (idx cap : Nat) (ret : RegVal)
  | regGetV (name : String) (cap : Nat) (ret : RegVal)
  | strCopy (cap : Nat) (src : String) (ok : Bool)
  | strCat (cap : Nat) (dst src : String) (ok : Bool)
  | fileAttr (path : String) (exists_ : Bool)
  | createProc (cmd cwd : String) (ok : Bool)
  | waitOne (timeout : Option Nat) (ret : Nat)
  | closeH (ok : Bool)
  | errorBox (fn : String) (code : Nat)
  | msgBox (m : String)
  | exitProcess (code : Nat)
  | regSetV (name v : String)
  | fileWrite (path : String)
deriving DecidableEq, Repr

/-- Registry path suffix appended to a candidate token before probing
the filesystem. -/
def winsyncSuffix : String := "\\site-packages\\winsync"

def pythonPathSuffix : String := "\\PythonPath"

def installPathSuffix : String := "\\InstallPath"

/-- First registry key the program opens. -/
def key0 : String := "SOFTWARE\\Python\\PythonCore"

/-- Fallback registry key, tried only when opening key0 fails. -/
def key1 : String := "SOFTWARE\\Wow6432Node\\Python\\PythonCore"

/-- Access rights requested by both RegOpenKeyEx calls. -/
def samDesired : Nat := KEY_READ ||| KEY_ENUMERATE_SUB_KEYS

/-- Shows a formatted message box naming the failing function and calls
ExitProcess with the error code. -/
def error_code_exit (fn : String) (code : Nat) : Outcome × List Op :=
  (.exitCode code, [.errorBox fn code, .exitProcess code])

/-- Shows the message in an error box and calls ExitProcess 255. -/
def msg_exit (m : String) : Outcome × List Op :=
  (.msgExit m, [.msgBox m, .exitProcess 255])

/-- Inner loop of find_winsync over the tokens of one subkey's
PythonPath value: copies each token into the path buffer, appends the
winsync suffix, probes the filesystem, and on a hit reads the subkey's
InstallPath into the out parameter and returns. Yields none when the
tokens are exhausted without a hit. -/
def scanTokens (reg : Reg) (rootKey : String) (fs : String → Bool)
    (keyname : String) (toks : List String) (path_size : Nat) :
    Option Outcome × List Op :=
  match toks with
  | [] => (none, [])
  | token :: rest =>
    match tcscpy_s MAX_PATH token with
    | none => (some .crtAbort, [.strCopy MAX_PATH token false])
    | some p1 =>
      match tcscat_s MAX_PATH p1 winsyncSuffix with
      | none =>
        (some .crtAbort,
         [.strCopy MAX_PATH token true, .strCat MAX_PATH p1 winsyncSuffix false])
      | some probe =>
        let pre := [Op.strCopy MAX_PATH token true,
                    Op.strCat MAX_PATH p1 winsyncSuffix true,
                    Op.fileAttr probe (fs probe)]
        if fs probe then
          match tcscpy_s MAX_PATH keyname with
          | none => (some .crtAbort, pre ++ [.strCopy MAX_PATH keyname false])
          | some n1 =>
            match tcscat_s MAX_PATH n1 installPathSuffix with
            | none =>
              (some .crtAbort,
               pre ++ [.strCopy MAX_PATH keyname true,
                       .strCat MAX_PATH n1 installPathSuffix false])
            | some iname =>
              let r := regGetValue reg rootKey iname path_size
              let pre2 := pre ++ [Op.strCopy MAX_PATH keyname true,
                                  Op.strCat MAX_PATH n1 installPathSuffix true,
                                  Op.regGetV iname path_size r.1]
              match r.1 with
              | .ok v => (some (.found v), pre2)
              | .err c =>
                let e := error_code_exit "RegGetValue (installpath)" c
                (some e.1, pre2 ++ e.2)
        else
          let rec2 := scanTokens reg rootKey fs keyname rest path_size
          (rec2.1, pre ++ rec2.2)

/-- Outer loop of find_winsync over the enumerated subkeys of the
opened root, starting from the given enumeration index. The path_size
parameter carries the current value of the size variable: it starts at
MAX_PATH and thereafter holds whatever the previous RegGetValue call
wrote back (the source resets only name_size between iterations). -/
def scanKeys (reg : Reg) (rootKey : String) (fs : String → Bool)
    (idx : Nat) (rest : List String) (path_size : Nat) : Outcome × List Op :=
  match rest with
  | [] =>
    let c := reg.endEnumCode rootKey
    let eOp := Op.regEnum idx MAX_PATH (.err c)
    if c = ERROR_NO_MORE_ITEMS then
      let e := msg_exit "Could not find a WinSync install"
      (e.1, eOp :: e.2)
    else
      let e := error_code_exit "RegEnumKeyEx" c
      (e.1, eOp :: e.2)
  | k :: rest2 =>
    if k.length + 1 ≤ MAX_PATH then
      let eOp := Op.regEnum idx MAX_PATH (.ok k)
      match tcscpy_s MAX_PATH k with
      | none => (.crtAbort, [eOp, .strCopy MAX_PATH k false])
      | some n1 =>
        match tcscat_s MAX_PATH n1 pythonPathSuffix with
        | none =>
          (.crtAbort,
           [eOp, .strCopy MAX_PATH k true,
            .strCat MAX_PATH n1 pythonPathSuffix false])
        | some name1 =>
          let r := regGetValue reg rootKey name1 path_size
          let pre := [eOp, Op.strCopy MAX_PATH k true,
                      Op.strCat MAX_PATH n1 pythonPathSuffix true,
                      Op.regGetV name1 path_size r.1]
          match r.1 with
          | .ok v =>
            let t := scanTokens reg rootKey fs k (tcstok v) r.2
            match t.1 with
            | some o => (o, pre ++ t.2)
            | none =>
              let rec2 := scanKeys reg rootKey fs (idx + 1) rest2 r.2
              (rec2.1, pre ++ t.2 ++ rec2.2)
          | .err c =>
            if c = ERROR_FILE_NOT_FOUND then
              let rec2 := scanKeys reg rootKey fs (idx + 1) rest2 r.2
              (rec2.1, pre ++ rec2.2)
            else
              let e := error_code_exit "RegGetValue" c
              (e.1, pre ++ e.2)
    else
      let e := error_code_exit "RegEnumKeyEx" ERROR_MORE_DATA
      (e.1, Op.regEnum idx MAX_PATH (.err ERROR_MORE_DATA) :: e.2)

/-- Finds the Winsync installation: opens the PythonCore key (falling
back to the Wow6432Node key when the first open fails), then scans the
enumerated subkeys. Returns the outcome and the trace of operations
performed. -/
def find_winsync (reg : Reg) (fs : String → Bool) : Outcome × List Op :=
  let r0 := reg.openKey key0
  let op0 := Op.regOpen key0 samDesired r0
  if r0 = ERROR_SUCCESS then
    let s := scanKeys reg key0 fs 0 (reg.subkeys key0) MAX_PATH
    (s.1, op0 :: s.2)
  else
    let r1 := reg.openKey key1
    let op1 := Op.regOpen key1 samDesired r1
    if r1 = ERROR_SUCCESS then
      let s := scanKeys reg key1 fs 0 (reg.subkeys key1) MAX_PATH
      (s.1, op0 :: op1 :: s.2)
    else
      let e := error_code_exit "RegOpenKeyEx" r1
      (e.1, op0 :: op1 :: e.2)

/-- Results of the process-level OS calls made by _tWinMain after
find_winsync returns: whether CreateProcess succeeds (and the error
code when it fails), the WaitForSingleObject return value (and the
error code when it reports WAIT_FAILED), and the results of the two
CloseHandle calls. -/
structure Sys where
  createOk : Bool
  createErr : Nat
  waitRet : Nat
  waitErr : Nat
  closeProcOk : Bool
  closeProcErr : Nat
  closeThreadOk : Bool
  closeThreadErr : Nat

/-- Result of a whole run of _tWinMain: completed carries the command
line handed to CreateProcess and the child's working directory; the
other cases terminate the process as in Outcome. -/
inductive MainRes where
  | completed (cmd cwd : String)
  | exitCode (code : Nat)
  | msgExit (msg : String)
  | crtAbort
deriving DecidableEq, Repr

/-- Entry point _tWinMain: locates the install, builds the command
line with bounded copies, spawns the child with CreateProcess (command
line and working directory both derived from the install path), blocks
on WaitForSingleObject with an INFINITE timeout, and closes the process
and thread handles. The lpCmdLine argument is declared but never used
by the source. -/
def tWinMain (reg : Reg) (fs : String → Bool) (sys : Sys)
    (lpCmdLine : String) : MainRes × List Op :=
  match find_winsync reg fs with
  | (.exitCode c, fOps) => (.exitCode c, fOps)
  | (.msgExit m, fOps) => (.msgExit m, fOps)
  | (.crtAbort, fOps) => (.crtAbort, fOps)
  | (.found path, fOps) =>
    match tcscpy_s MAX_PATH path with
    | none => (.crtAbort, fOps ++ [.strCopy MAX_PATH path false])
    | some a1 =>
      match tcscat_s MAX_PATH a1 "python.exe" with
      | none =>
        (.crtAbort,
         fOps ++ [.strCopy MAX_PATH path true,
                  .strCat MAX_PATH a1 "python.exe" false])
      | some a2 =>
        match tcscat_s MAX_PATH a2 " -m winsync.run" with
        | none =>
          (.crtAbort,
           fOps ++ [.strCopy MAX_PATH path true,
                    .strCat MAX_PATH a1 "python.exe" true,
                    .strCat MAX_PATH a2 " -m winsync.run" false])
        | some appname =>
          let bOps := [Op.strCopy MAX_PATH path true,
                       Op.strCat MAX_PATH a1 "python.exe" true,
                       Op.strCat MAX_PATH a2 " -m winsync.run" true,
                       Op.createProc appname path sys.createOk]
          if sys.createOk then
            let wOp := Op.waitOne none sys.waitRet
            if sys.waitRet = WAIT_ABANDONED then
              let e := msg_exit "Wait abandoned"
              (.msgExit "Wait abandoned", fOps ++ bOps ++ wOp :: e.2)
            else if sys.waitRet = WAIT_TIMEOUT then
              let e := msg_exit "Timout reached, should have waited indefinately."
              (.msgExit "Timout reached, should have waited indefinately.",
               fOps ++ bOps ++ wOp :: e.2)
            else if sys.waitRet = WAIT_FAILED then
              let e := error_code_exit "WaitForSingleObject" sys.waitErr
              (.exitCode sys.waitErr, fOps ++ bOps ++ wOp :: e.2)
            else
              if sys.closeProcOk then
                if sys.closeThreadOk then
                  (.completed appname path,
                   fOps ++ bOps ++ [wOp, .closeH true, .closeH true])
                else
                  let e := error_code_exit "CloseHandle (thread)" sys.closeThreadErr
                  (.exitCode sys.closeThreadErr,
                   fOps ++ bOps ++ [wOp, .closeH true, .closeH false] ++ e.2)
              else
                let e := error_code_exit "CloseHandle (process)" sys.closeProcErr
                (.exitCode sys.closeProcErr,
                 fOps ++ bOps ++ [wOp, .closeH false] ++ e.2)
          else
            let e := error_code_exit "CreateProcess" sys.createErr
            (.exitCode sys.createErr, fOps ++ bOps ++ e.2)

/-- Spec-side predicate: the enumerated subkey k names an install whose
PythonPath value is readable and has a token whose
site-packages\winsync directory exists on disk. Written from the words
of claim C1 to be compared with the code's scan. -/
def keyHasWinsync (reg : Reg) (rootKey : String) (fs : String → Bool)
    (k : String) : Bool :=
  match reg.getValue rootKey (k ++ pythonPathSuffix) with
  | .ok v => (tcstok v).any (fun t => fs (t ++ winsyncSuffix))
  | .err _ => false

/-- Spec-side function: the first subkey, in enumeration order, that
contains a winsync install. -/
def firstWinsyncKey (reg : Reg) (rootKey : String) (fs : String → Bool) :
    Option String :=
  (reg.subkeys rootKey).find? (keyHasWinsync reg rootKey fs)

/-- Process exit status of a run: error_code_exit passes the Windows
error code to ExitProcess, msg_exit passes 255; a completed run and a
CRT abort do not go through ExitProcess. -/
def exitStatus : MainRes → Option Nat
  | .completed _ _ => none
  | .exitCode c => some c
  | .msgExit _ => some 255
  | .crtAbort => none

/-- Identifies operations that modify the registry or the filesystem. -/
def Op.isWrite : Op → Bool
  | .regSetV _ _ => true
  | .fileWrite _ => true
  | _ => false

/-- Identifies the process-level operations of the main flow. -/
def Op.isProcOp : Op → Bool
  | .createProc _ _ _ => true
  | .waitOne _ _ => true
  | .closeH _ => true
  | _ => false

/-- Access rights requested by an operation, when it opens a key. -/
def Op.openSam : Op → Option Nat
  | .regOpen _ sam _ => some sam
  | _ => none

/-- Strings an operation stores into one of the fixed-size buffers:
the source of a successful bounded copy, the result of a successful
bounded concatenation, and the data delivered by a successful registry
read or enumeration. -/
def Op.stored : Op → List String
  | .strCopy _ src true => [src]
  | .strCat _ dst src true => [dst ++ src]
  | .regGetV _ _ (.ok v) => [v]
  | .regEnum _ _ (.ok k) => [k]
  | _ => []

/-- Buffer capacity an operation offers, when it writes into a buffer. -/
def Op.cap : Op → Option Nat
  | .strCopy c _ _ => some c
  | .strCat c _ _ _ => some c
  | .regGetV _ c _ => some c
  | .regEnum _ c _ => some c
  | _ => none

/-- Abstract persistent state: the registry values and the files that
exist. Only write operations change it. -/
structure World where
  regVals : List (String × String)
  files : List String
deriving DecidableEq, Repr

/-- Effect of one operation on the persistent state: the two write
operations modify it, every operation the program actually performs
leaves it unchanged. -/
def applyOp (w : World) : Op → World
  | .regSetV n v => { w with regVals := (n, v) :: w.regVals }
  | .fileWrite p => { w with files := p :: w.files }
  | _ => w

/-- Every bounded copy and concatenation in the source passes MAX_PATH
as the capacity; this predicate states that of one operation. -/
def Op.copyCapFull : Op → Prop
  | .strCopy c _ _ => c = MAX_PATH
  | .strCat c _ _ _ => c = MAX_PATH
  | _ => True

/-- Structural well-formedness of one recorded operation: it is not a
write, any key open uses one of the two fixed locations with the fixed
read-only rights, everything it stores in a buffer fits in MAX_PATH
characters, every capacity it offers is at most MAX_PATH, and bounded
copies use exactly MAX_PATH. -/
def opOk (op : Op) : Prop :=
  op.isWrite = false ∧
  (∀ k s r, op = .regOpen k s r → ((k = key0 ∨ k = key1) ∧ s = samDesired)) ∧
  (∀ s ∈ op.stored, s.length + 1 ≤ MAX_PATH) ∧
  (∀ c, op.cap = some c → c ≤ MAX_PATH) ∧ op.copyCapFull

/-! Concrete environments used to evaluate the model on closed inputs. -/

/-- Registry with a single Python 2.7 install under the primary key:
PythonPath holds one token and InstallPath a short value that fits the
size left behind by the PythonPath read. -/
def wReg : Reg where
  openKey := fun k => if k = key0 then 0 else 53
  subkeys := fun _ => ["2.7"]
  endEnumCode := fun _ => ERROR_NO_MORE_ITEMS
  getValue := fun _ n =>
    if n = "2.7\\PythonPath" then .ok "C:\\Python27"
    else if n = "2.7\\InstallPath" then .ok "C:\\Py\\"
    else .err 2

/-- Filesystem on which exactly the 2.7 install carries winsync. -/
def wFs : String → Bool :=
  fun p => p = "C:\\Python27" ++ winsyncSuffix

/-- Same install as wReg but reachable only through the Wow6432Node
fallback key: the primary open fails with code 5. -/
def fbReg : Reg where
  openKey := fun k => if k = key0 then 5 else if k = key1 then 0 else 53
  subkeys := fun k => if k = key1 then ["2.7"] else []
  endEnumCode := fun _ => ERROR_NO_MORE_ITEMS
  getValue := fun k n =>
    if k = key1 then
      if n = "2.7\\PythonPath" then .ok "C:\\Python27"
      else if n = "2.7\\InstallPath" then .ok "C:\\Py\\"
      else .err 2
    else .err 2

/-- Registry whose first subkey has no PythonPath value (error 2, the
stale-uninstaller case the source skips) and whose second subkey holds
the winsync install. -/
def skipReg : Reg where
  openKey := fun k => if k = key0 then 0 else 53
  subkeys := fun _ => ["2.6", "2.7"]
  endEnumCode := fun _ => ERROR_NO_MORE_ITEMS
  getValue := fun _ n =>
    if n = "2.7\\PythonPath" then .ok "C:\\Python27"
    else if n = "2.7\\InstallPath" then .ok "C:\\Py\\"
    else .err 2

/-- Registry exhibiting the stale path_size: the first subkey's
PythonPath value is short (writing 7 back into path_size) and contains
no winsync; the second subkey holds a real winsync install whose
PythonPath value needs 16 characters. -/
def bugReg : Reg where
  openKey := fun k => if k = key0 then 0 else 53
  subkeys := fun _ => ["2.7", "3.4"]
  endEnumCode := fun _ => ERROR_NO_MORE_ITEMS
  getValue := fun _ n =>
    if n = "2.7\\PythonPath" then .ok "C:\\bad"
    else if n = "3.4\\PythonPath" then .ok "C:\\Python34\\Lib"
    else if n = "3.4\\InstallPath" then .ok "C:\\Python34\\"
    else .err 2

/-- Filesystem on which the second install of bugReg carries winsync. -/
def bugFs : String → Bool :=
  fun p => p = "C:\\Python34\\Lib" ++ winsyncSuffix

/-- Registry whose only subkey name is 250 characters long: the name
fits the enumeration buffer but appending the PythonPath suffix
overruns MAX_PATH, so the bounded concatenation rejects it. -/
def longReg : Reg where
  openKey := fun k => if k = key0 then 0 else 53
  subkeys := fun _ => [String.mk (List.replicate 250 'a')]
  endEnumCode := fun _ => ERROR_NO_MORE_ITEMS
  getValue := fun _ _ => .err 2

/-- Registry in which both fixed keys fail to open. -/
def deadReg : Reg where
  openKey := fun k => if k = key0 then 5 else if k = key1 then 2 else 53
  subkeys := fun _ => []
  endEnumCode := fun _ => ERROR_NO_MORE_ITEMS
  getValue := fun _ _ => .err 2

/-- Registry that opens but has no subkeys at all. -/
def emptyReg : Reg where
  openKey := fun k => if k = key0 then 0 else 53
  subkeys := fun _ => []
  endEnumCode := fun _ => ERROR_NO_MORE_ITEMS
  getValue := fun _ _ => .err 2

/-- Filesystem with no winsync anywhere. -/
def noFs : String → Bool := fun _ => false

/-- System-call results in which everything succeeds and the wait
returns WAIT_OBJECT_0. -/
def okSys : Sys where
  createOk := true
  createErr := 0
  waitRet := WAIT_OBJECT_0
  waitErr := 0
  closeProcOk := true
  closeProcErr := 0
  closeThreadOk := true
  closeThreadErr := 0

/-- System-call results in which the wait reports WAIT_ABANDONED. -/
def abandonSys : Sys := { okSys with waitRet := WAIT_ABANDONED }

/-- System-call results in which the wait reports WAIT_TIMEOUT. -/
def timeoutSys : Sys := { okSys with waitRet := WAIT_TIMEOUT }

/-- System-call results in which the wait fails with error 6. -/
def waitFailSys : Sys := { okSys with waitRet := WAIT_FAILED, waitErr := 6 }

/-- System-call results in which CreateProcess fails with error 8. -/
def createFailSys : Sys := { okSys with createOk := false, createErr := 8 }

/-- System-call results in which closing the process handle fails with
error 9. -/
def closeFailSys : Sys := { okSys with closeProcOk := false, closeProcErr := 9 }


/-- Identifies WaitForSingleObject operations. -/
def Op.isWaitOp : Op → Bool
  | .waitOne _ _ => true
  | _ => false

/-- Identifies CreateProcess operations. -/
def Op.isCreateOp : Op → Bool
  | .createProc _ _ _ => true
  | _ => false

/-- Identifies CloseHandle operations. -/
def Op.isCloseOp : Op → Bool
  | .closeH _ => true
  | _ => false

/-! Basic properties of the bounded string operations. -/

theorem tcscpy_s_eq_some {cap : Nat} {s r : String}
    (h : tcscpy_s cap s = some r) : s.length + 1 ≤ cap ∧ r = s := by
  unfold tcscpy_s at h
  split at h
  · injection h with h2
    exact ⟨by assumption, h2.symm⟩
  · exact Option.noConfusion h

theorem tcscpy_s_eq_none {cap : Nat} {s : String}
    (h : tcscpy_s cap s = none) : ¬ s.length + 1 ≤ cap := by
  unfold tcscpy_s at h
  split at h
  · exact absurd h (by simp)
  · assumption

theorem tcscat_s_eq_some {cap : Nat} {d s r : String}
    (h : tcscat_s cap d s = some r) :
    d.length + s.length + 1 ≤ cap ∧ r = d ++ s := by
  unfold tcscat_s at h
  split at h
  · injection h with h2
    exact ⟨by assumption, h2.symm⟩
  · exact Option.noConfusion h

theorem tcscat_s_eq_none {cap : Nat} {d s : String}
    (h : tcscat_s cap d s = none) : ¬ d.length + s.length + 1 ≤ cap := by
  unfold tcscat_s at h
  split at h
  · exact absurd h (by simp)
  · assumption

theorem regGetValue_ok {reg : Reg} {rk n : String} {cap : Nat} {v : String}
    (h : reg.getValue rk n = .ok v) (hfit : v.length + 1 ≤ cap) :
    regGetValue reg rk n cap = (.ok v, v.length + 1) := by
  simp [regGetValue, h, hfit]

theorem regGetValue_more {reg : Reg} {rk n : String} {cap : Nat} {v : String}
    (h : reg.getValue rk n = .ok v) (hfit : ¬ v.length + 1 ≤ cap) :
    regGetValue reg rk n cap = (.err ERROR_MORE_DATA, v.length + 1) := by
  simp [regGetValue, h, hfit]

theorem regGetValue_err {reg : Reg} {rk n : String} {cap : Nat} {c : Nat}
    (h : reg.getValue rk n = .err c) :
    regGetValue reg rk n cap = (.err c, cap) := by
  simp [regGetValue, h]

theorem regGetValue_fst_ok {reg : Reg} {rk n : String} {cap : Nat} {v : String}
    (h : (regGetValue reg rk n cap).1 = .ok v) :
    reg.getValue rk n = .ok v ∧ v.length + 1 ≤ cap := by
  unfold regGetValue at h
  cases hg : reg.getValue rk n with
  | err c => rw [hg] at h; simp at h
  | ok w =>
    rw [hg] at h
    by_cases hf : w.length + 1 ≤ cap
    · simp [hf] at h
      subst h
      exact ⟨rfl, hf⟩
    · simp [hf] at h


theorem scanTokens_ops (reg : Reg) (rk : String) (fs : String → Bool)
    (kn : String) :
    ∀ (toks : List String) (ps : Nat), ps ≤ MAX_PATH →
      ∀ op ∈ (scanTokens reg rk fs kn toks ps).2,
        opOk op ∧ op.isProcOp = false := by
  intro toks
  induction toks with
  | nil =>
    intro ps _ op h
    simp [scanTokens] at h
  | cons t rest ih =>
    intro ps hps op h
    simp only [scanTokens] at h
    split at h
    · rename_i heq1
      simp at h
      subst h
      simp [opOk, Op.isWrite, Op.stored, Op.cap, Op.copyCapFull, Op.isProcOp]
    · rename_i p1 heq1
      obtain ⟨ht, hp1⟩ := tcscpy_s_eq_some heq1
      subst hp1
      split at h
      · rename_i heq2
        simp at h
        rcases h with h | h <;> subst h <;>
          simp [opOk, Op.isWrite, Op.stored, Op.cap, Op.copyCapFull,
                Op.isProcOp, ht]
      · rename_i probe heq2
        obtain ⟨hcat, hprobe⟩ := tcscat_s_eq_some heq2
        split at h
        · split at h
          · rename_i heq3
            simp at h
            rcases h with h | h | h | h <;> subst h <;>
              simp [opOk, Op.isWrite, Op.stored, Op.cap, Op.copyCapFull,
                    Op.isProcOp, ht, hprobe, hcat]
          · rename_i n1 heq3
            obtain ⟨hkn, hn1⟩ := tcscpy_s_eq_some heq3
            subst hn1
            split at h
            · rename_i heq4
              simp at h
              rcases h with h | h | h | h | h <;> subst h <;>
                simp [opOk, Op.isWrite, Op.stored, Op.cap, Op.copyCapFull,
                      Op.isProcOp, ht, hprobe, hcat, hkn]
            · rename_i iname heq4
              obtain ⟨hkncat, hiname⟩ := tcscat_s_eq_some heq4
              split at h
              · rename_i v heq5
                simp at h
                obtain ⟨hv1, hv2⟩ := regGetValue_fst_ok heq5
                rcases h with h | h | h | h | h | h <;> subst h <;>
                  simp [opOk, Op.isWrite, Op.stored, Op.cap, Op.copyCapFull,
                        Op.isProcOp, ht, hprobe, hcat, hkn, hkncat, hps,
                        heq5] <;>
                  omega
              · rename_i c heq5
                simp [error_code_exit] at h
                rcases h with h | h | h | h | h | h | h | h <;> subst h <;>
                  simp [opOk, Op.isWrite, Op.stored, Op.cap, Op.copyCapFull,
                        Op.isProcOp, ht, hprobe, hcat, hkn, hkncat, hps, heq5]
        · simp at h
          rcases h with h | h | h | h
          · subst h
            simp [opOk, Op.isWrite, Op.stored, Op.cap, Op.copyCapFull,
                  Op.isProcOp, ht]
          · subst h
            simp [opOk, Op.isWrite, Op.stored, Op.cap, Op.copyCapFull,
                  Op.isProcOp, ht, hprobe, hcat]
          · subst h
            simp [opOk, Op.isWrite, Op.stored, Op.cap, Op.copyCapFull,
                  Op.isProcOp]
          · exact ih ps hps op h

theorem regGetValue_snd_of_ok {reg : Reg} {rk n : String} {cap : Nat}
    {v : String} (h : (regGetValue reg rk n cap).1 = .ok v) :
    (regGetValue reg rk n cap).2 = v.length + 1 ∧ v.length + 1 ≤ cap := by
  obtain ⟨h1, h2⟩ := regGetValue_fst_ok h
  rw [regGetValue_ok h1 h2]
  exact ⟨rfl, h2⟩

theorem regGetValue_snd_of_err2 {reg : Reg} {rk n : String} {cap : Nat}
    (h : (regGetValue reg rk n cap).1 = .err ERROR_FILE_NOT_FOUND) :
    (regGetValue reg rk n cap).2 = cap := by
  unfold regGetValue at h ⊢
  cases hg : reg.getValue rk n with
  | err c => simp
  | ok w =>
    rw [hg] at h
    by_cases hf : w.length + 1 ≤ cap
    · simp [hf] at h
    · simp [hf] at h ⊢
      simp [ERROR_MORE_DATA, ERROR_FILE_NOT_FOUND] at h


theorem scanKeys_ops (reg : Reg) (rk : String) (fs : String → Bool) :
    ∀ (rest : List String) (idx ps : Nat), ps ≤ MAX_PATH →
      ∀ op ∈ (scanKeys reg rk fs idx rest ps).2,
        opOk op ∧ op.isProcOp = false := by
  intro rest
  induction rest with
  | nil =>
    intro idx ps _ op h
    simp only [scanKeys] at h
    split at h <;>
      (simp [msg_exit, error_code_exit] at h
       repeat' rcases h with h | h
       all_goals simp [opOk, Op.isWrite, Op.stored, Op.cap, Op.copyCapFull,
                       Op.isProcOp])
  | cons k rest2 ih =>
    intro idx ps hps op h
    simp only [scanKeys] at h
    split at h
    · rename_i hklen
      split at h
      · rename_i heq1
        simp at h
        repeat' rcases h with h | h
        all_goals (simp [opOk, Op.isWrite, Op.stored, Op.cap, Op.copyCapFull,
                         Op.isProcOp] <;> omega)
      · rename_i n1 heq1
        obtain ⟨hk, hn1⟩ := tcscpy_s_eq_some heq1
        subst hn1
        split at h
        · rename_i heq2
          simp at h
          repeat' rcases h with h | h
          all_goals (simp [opOk, Op.isWrite, Op.stored, Op.cap, Op.copyCapFull,
                           Op.isProcOp, hk] <;> omega)
        · rename_i name1 heq2
          obtain ⟨hkcat, hname1⟩ := tcscat_s_eq_some heq2
          split at h
          · rename_i v heq3
            obtain ⟨hsnd, hfit⟩ := regGetValue_snd_of_ok heq3
            split at h <;>
              (simp at h
               repeat' rcases h with h | h
               all_goals first
                 | exact scanTokens_ops reg rk fs n1 (tcstok v)
                     (regGetValue reg rk name1 ps).2 (by omega) op h
                 | exact ih (idx + 1) (regGetValue reg rk name1 ps).2
                     (by omega) op h
                 | (simp [opOk, Op.isWrite, Op.stored, Op.cap, Op.copyCapFull,
                          Op.isProcOp, hk, hkcat, heq3] <;> omega))
          · rename_i c heq3
            split at h
            · rename_i hc2
              subst hc2
              have hsnd := regGetValue_snd_of_err2 heq3
              simp at h
              repeat' rcases h with h | h
              all_goals first
                | exact ih (idx + 1) (regGetValue reg rk name1 ps).2
                    (by omega) op h
                | (simp [opOk, Op.isWrite, Op.stored, Op.cap, Op.copyCapFull,
                         Op.isProcOp, hk, hkcat, heq3] <;> omega)
            · simp [error_code_exit] at h
              repeat' rcases h with h | h
              all_goals (simp [opOk, Op.isWrite, Op.stored, Op.cap,
                               Op.copyCapFull, Op.isProcOp, hk, hkcat,
                               heq3] <;> omega)
    · simp [error_code_exit] at h
      repeat' rcases h with h | h
      all_goals simp [opOk, Op.isWrite, Op.stored, Op.cap, Op.copyCapFull,
                      Op.isProcOp]

theorem find_winsync_ops (reg : Reg) (fs : String → Bool) :
    ∀ op ∈ (find_winsync reg fs).2, opOk op ∧ op.isProcOp = false := by
  intro op h
  simp only [find_winsync] at h
  split at h
  · simp at h
    rcases h with h | h
    · subst h
      simp [opOk, Op.isWrite, Op.stored, Op.cap, Op.copyCapFull, Op.isProcOp]
    · exact scanKeys_ops reg key0 fs (reg.subkeys key0) 0 MAX_PATH le_rfl op h
  · split at h
    · simp at h
      rcases h with h | h | h
      · subst h
        simp [opOk, Op.isWrite, Op.stored, Op.cap, Op.copyCapFull, Op.isProcOp]
      · subst h
        simp [opOk, Op.isWrite, Op.stored, Op.cap, Op.copyCapFull, Op.isProcOp]
      · exact scanKeys_ops reg key1 fs (reg.subkeys key1) 0 MAX_PATH le_rfl op h
    · simp [error_code_exit] at h
      repeat' rcases h with h | h
      all_goals simp [opOk, Op.isWrite, Op.stored, Op.cap, Op.copyCapFull,
                      Op.isProcOp]

theorem tWinMain_ops (reg : Reg) (fs : String → Bool) (sys : Sys)
    (cmd : String) :
    ∀ op ∈ (tWinMain reg fs sys cmd).2, opOk op := by
  intro op h
  simp only [tWinMain] at h
  split at h
  · rename_i c fOps heq
    have h2 : (find_winsync reg fs).2 = fOps := by rw [heq]
    exact (find_winsync_ops reg fs op (by rw [h2]; exact h)).1
  · rename_i m fOps heq
    have h2 : (find_winsync reg fs).2 = fOps := by rw [heq]
    exact (find_winsync_ops reg fs op (by rw [h2]; exact h)).1
  · rename_i fOps heq
    have h2 : (find_winsync reg fs).2 = fOps := by rw [heq]
    exact (find_winsync_ops reg fs op (by rw [h2]; exact h)).1
  · rename_i path fOps heq
    have hfind : ∀ o ∈ fOps, opOk o := by
      intro o ho
      have h2 : (find_winsync reg fs).2 = fOps := by rw [heq]
      exact (find_winsync_ops reg fs o (by rw [h2]; exact ho)).1
    split at h
    · rename_i heq1
      simp at h
      rcases h with h | h
      · exact hfind op h
      · subst h
        simp [opOk, Op.isWrite, Op.stored, Op.cap, Op.copyCapFull]
    · rename_i a1 heq1
      obtain ⟨hp, ha1⟩ := tcscpy_s_eq_some heq1
      subst ha1
      split at h
      · rename_i heq2
        simp at h
        rcases h with h | h
        · exact hfind op h
        · repeat' rcases h with h | h
          all_goals simp [opOk, Op.isWrite, Op.stored, Op.cap, Op.copyCapFull,
                          hp]
      · rename_i a2 heq2
        obtain ⟨hc1, ha2⟩ := tcscat_s_eq_some heq2
        subst ha2
        split at h
        · rename_i heq3
          simp at h
          rcases h with h | h
          · exact hfind op h
          · repeat' rcases h with h | h
            all_goals (simp [opOk, Op.isWrite, Op.stored, Op.cap,
                             Op.copyCapFull, hp, hc1,
                             String.length_append] <;> omega)
        · rename_i appname heq3
          obtain ⟨hc2, happ⟩ := tcscat_s_eq_some heq3
          simp only [String.length_append] at hc2
          split at h
          · split at h
            · simp [msg_exit] at h
              rcases h with h | h
              · exact hfind op h
              · repeat' rcases h with h | h
                all_goals (simp [opOk, Op.isWrite, Op.stored, Op.cap,
                                 Op.copyCapFull, hp, hc1, hc2,
                                 String.length_append] <;> omega)
            · split at h
              · simp [msg_exit] at h
                rcases h with h | h
                · exact hfind op h
                · repeat' rcases h with h | h
                  all_goals (simp [opOk, Op.isWrite, Op.stored, Op.cap,
                                   Op.copyCapFull, hp, hc1, hc2,
                                   String.length_append] <;> omega)
              · split at h
                · simp [error_code_exit] at h
                  rcases h with h | h
                  · exact hfind op h
                  · repeat' rcases h with h | h
                    all_goals (simp [opOk, Op.isWrite, Op.stored, Op.cap,
                                     Op.copyCapFull, hp, hc1, hc2,
                                     String.length_append] <;> omega)
                · split at h
                  · split at h
                    · simp at h
                      rcases h with h | h
                      · exact hfind op h
                      · repeat' rcases h with h | h
                        all_goals (simp [opOk, Op.isWrite, Op.stored, Op.cap,
                                         Op.copyCapFull, hp, hc1, hc2,
                                         String.length_append] <;> omega)
                    · simp [error_code_exit] at h
                      rcases h with h | h
                      · exact hfind op h
                      · repeat' rcases h with h | h
                        all_goals (simp [opOk, Op.isWrite, Op.stored, Op.cap,
                                         Op.copyCapFull, hp, hc1, hc2,
                                         String.length_append] <;> omega)
                  · simp [error_code_exit] at h
                    rcases h with h | h
                    · exact hfind op h
                    · repeat' rcases h with h | h
                      all_goals (simp [opOk, Op.isWrite, Op.stored, Op.cap,
                                       Op.copyCapFull, hp, hc1, hc2,
                                       String.length_append] <;> omega)
          · simp [error_code_exit] at h
            rcases h with h | h
            · exact hfind op h
            · repeat' rcases h with h | h
              all_goals (simp [opOk, Op.isWrite, Op.stored, Op.cap,
                               Op.copyCapFull, hp, hc1, hc2,
                               String.length_append] <;> omega)

theorem regGetValue_fst_err2 {reg : Reg} {rk n : String} {cap : Nat}
    (h : (regGetValue reg rk n cap).1 = .err ERROR_FILE_NOT_FOUND) :
    reg.getValue rk n = .err ERROR_FILE_NOT_FOUND := by
  unfold regGetValue at h
  cases hg : reg.getValue rk n with
  | err c =>
    rw [hg] at h
    simp at h
    rw [h]
  | ok w =>
    rw [hg] at h
    by_cases hf : w.length + 1 ≤ cap
    · simp [hf] at h
    · simp [hf] at h
      simp [ERROR_MORE_DATA, ERROR_FILE_NOT_FOUND] at h

theorem scanTokens_fst_none {reg : Reg} {rk : String} {fs : String → Bool}
    {kn : String} :
    ∀ {toks : List String} {ps : Nat},
      (scanTokens reg rk fs kn toks ps).1 = none →
      toks.any (fun t => fs (t ++ winsyncSuffix)) = false := by
  intro toks
  induction toks with
  | nil => intro ps _; simp
  | cons t rest ih =>
    intro ps h
    simp only [scanTokens] at h
    split at h
    · simp at h
    · rename_i p1 heq1
      obtain ⟨ht, hp1⟩ := tcscpy_s_eq_some heq1
      subst hp1
      split at h
      · simp at h
      · rename_i probe heq2
        obtain ⟨hcat, hprobe⟩ := tcscat_s_eq_some heq2
        subst hprobe
        split at h
        · split at h
          · simp at h
          · split at h
            · simp at h
            · split at h <;> simp at h
        · rename_i hf
          simp only [Bool.not_eq_true] at hf
          simp at h
          simp [List.any_cons, hf, ih h]

theorem scanTokens_fst_found {reg : Reg} {rk : String} {fs : String → Bool}
    {kn : String} :
    ∀ {toks : List String} {ps : Nat} {p : String},
      (scanTokens reg rk fs kn toks ps).1 = some (.found p) →
      toks.any (fun t => fs (t ++ winsyncSuffix)) = true ∧
      reg.getValue rk (kn ++ installPathSuffix) = .ok p ∧
      p.length + 1 ≤ ps := by
  intro toks
  induction toks with
  | nil => intro ps p h; simp [scanTokens] at h
  | cons t rest ih =>
    intro ps p h
    simp only [scanTokens] at h
    split at h
    · simp at h
    · rename_i p1 heq1
      obtain ⟨ht, hp1⟩ := tcscpy_s_eq_some heq1
      subst hp1
      split at h
      · simp at h
      · rename_i probe heq2
        obtain ⟨hcat, hprobe⟩ := tcscat_s_eq_some heq2
        subst hprobe
        split at h
        · rename_i hf
          split at h
          · simp at h
          · rename_i n1 heq3
            obtain ⟨hkn, hn1⟩ := tcscpy_s_eq_some heq3
            subst hn1
            split at h
            · simp at h
            · rename_i iname heq4
              obtain ⟨hkncat, hiname⟩ := tcscat_s_eq_some heq4
              subst hiname
              split at h
              · rename_i v heq5
                simp at h
                subst h
                obtain ⟨hg, hfit⟩ := regGetValue_fst_ok heq5
                exact ⟨by simp [List.any_cons, hf], hg, hfit⟩
              · simp [error_code_exit] at h
        · rename_i hf
          simp only [Bool.not_eq_true] at hf
          simp at h
          obtain ⟨ha, hb, hc⟩ := ih h
          exact ⟨by simp [List.any_cons, ha], hb, hc⟩

theorem scanKeys_fst_found {reg : Reg} {rk : String} {fs : String → Bool} :
    ∀ {rest : List String} {idx ps : Nat} {p : String}, ps ≤ MAX_PATH →
      (scanKeys reg rk fs idx rest ps).1 = .found p →
      ∃ k, rest.find? (keyHasWinsync reg rk fs) = some k ∧
        reg.getValue rk (k ++ installPathSuffix) = .ok p ∧
        p.length + 1 ≤ MAX_PATH := by
  intro rest
  induction rest with
  | nil =>
    intro idx ps p _ h
    simp only [scanKeys] at h
    split at h <;> simp [msg_exit, error_code_exit] at h
  | cons k rest2 ih =>
    intro idx ps p hps h
    simp only [scanKeys] at h
    split at h
    · rename_i hklen
      split at h
      · simp at h
      · rename_i n1 heq1
        obtain ⟨hk, hn1⟩ := tcscpy_s_eq_some heq1
        subst hn1
        split at h
        · simp at h
        · rename_i name1 heq2
          obtain ⟨hkcat, hname1⟩ := tcscat_s_eq_some heq2
          subst hname1
          split at h
          · rename_i v heq3
            obtain ⟨hsnd, hfit⟩ := regGetValue_snd_of_ok heq3
            obtain ⟨hg, _⟩ := regGetValue_fst_ok heq3
            split at h
            · rename_i o heq4
              simp at h
              subst h
              obtain ⟨ha, hb, hc⟩ := scanTokens_fst_found heq4
              refine ⟨n1, ?_, hb, by omega⟩
              rw [List.find?_cons_of_pos]
              simp [keyHasWinsync, hg, ha]
            · rename_i heq4
              obtain ⟨kk, hf1, hf2, hf3⟩ := ih (by omega) h
              refine ⟨kk, ?_, hf2, hf3⟩
              rw [List.find?_cons_of_neg]
              · exact hf1
              · simp [keyHasWinsync, hg, scanTokens_fst_none heq4]
          · rename_i c heq3
            split at h
            · rename_i hc2
              subst hc2
              have hg := regGetValue_fst_err2 heq3
              have hsnd := regGetValue_snd_of_err2 heq3
              obtain ⟨kk, hf1, hf2, hf3⟩ := ih (by omega) h
              refine ⟨kk, ?_, hf2, hf3⟩
              rw [List.find?_cons_of_neg]
              · exact hf1
              · simp [keyHasWinsync, hg]
            · simp [error_code_exit] at h
    · simp [error_code_exit] at h

theorem find_winsync_found {reg : Reg} {fs : String → Bool} {p : String}
    (h : (find_winsync reg fs).1 = .found p) :
    ∃ rk, ((reg.openKey key0 = ERROR_SUCCESS ∧ rk = key0) ∨
           (reg.openKey key0 ≠ ERROR_SUCCESS ∧
            reg.openKey key1 = ERROR_SUCCESS ∧ rk = key1)) ∧
      ∃ k, firstWinsyncKey reg rk fs = some k ∧
        reg.getValue rk (k ++ installPathSuffix) = .ok p ∧
        p.length + 1 ≤ MAX_PATH := by
  simp only [find_winsync] at h
  split at h
  · rename_i h0
    obtain ⟨k, hf1, hf2, hf3⟩ := scanKeys_fst_found le_rfl h
    exact ⟨key0, Or.inl ⟨h0, rfl⟩, k, hf1, hf2, hf3⟩
  · rename_i h0
    split at h
    · rename_i h1
      obtain ⟨k, hf1, hf2, hf3⟩ := scanKeys_fst_found le_rfl h
      exact ⟨key1, Or.inr ⟨h0, h1, rfl⟩, k, hf1, hf2, hf3⟩
    · simp [error_code_exit] at h

theorem scanKeys_nil_noMore {reg : Reg} {rk : String} {fs : String → Bool}
    {idx ps : Nat} (h : reg.endEnumCode rk = ERROR_NO_MORE_ITEMS) :
    scanKeys reg rk fs idx [] ps =
      (.msgExit "Could not find a WinSync install",
       [Op.regEnum idx MAX_PATH (.err (reg.endEnumCode rk)),
        Op.msgBox "Could not find a WinSync install",
        Op.exitProcess 255]) := by
  simp [scanKeys, msg_exit, h]

theorem scanKeys_nil_other {reg : Reg} {rk : String} {fs : String → Bool}
    {idx ps : Nat} (h : reg.endEnumCode rk ≠ ERROR_NO_MORE_ITEMS) :
    scanKeys reg rk fs idx [] ps =
      (.exitCode (reg.endEnumCode rk),
       [Op.regEnum idx MAX_PATH (.err (reg.endEnumCode rk)),
        Op.errorBox "RegEnumKeyEx" (reg.endEnumCode rk),
        Op.exitProcess (reg.endEnumCode rk)]) := by
  simp [scanKeys, error_code_exit, h]

theorem scanKeys_cons_skip2 {reg : Reg} {rk : String} {fs : String → Bool}
    {idx ps : Nat} {k : String} {rest : List String}
    (hklen : k.length + 1 ≤ MAX_PATH)
    (hkcat : k.length + pythonPathSuffix.length + 1 ≤ MAX_PATH)
    (hval : reg.getValue rk (k ++ pythonPathSuffix) = .err ERROR_FILE_NOT_FOUND) :
    scanKeys reg rk fs idx (k :: rest) ps =
      ((scanKeys reg rk fs (idx + 1) rest ps).1,
       [Op.regEnum idx MAX_PATH (.ok k),
        Op.strCopy MAX_PATH k true,
        Op.strCat MAX_PATH k pythonPathSuffix true,
        Op.regGetV (k ++ pythonPathSuffix) ps (.err ERROR_FILE_NOT_FOUND)] ++
       (scanKeys reg rk fs (idx + 1) rest ps).2) := by
  have hcpy : tcscpy_s MAX_PATH k = some k := by simp [tcscpy_s, hklen]
  have hcat : tcscat_s MAX_PATH k pythonPathSuffix =
      some (k ++ pythonPathSuffix) := by simp [tcscat_s, hkcat]
  have hrv := @regGetValue_err reg rk (k ++ pythonPathSuffix) ps ERROR_FILE_NOT_FOUND hval
  simp only [scanKeys, hcpy, hcat, hrv]
  simp [ERROR_FILE_NOT_FOUND, hklen]

theorem scanKeys_cons_errOther {reg : Reg} {rk : String} {fs : String → Bool}
    {idx ps : Nat} {k : String} {rest : List String} {c : Nat}
    (hklen : k.length + 1 ≤ MAX_PATH)
    (hkcat : k.length + pythonPathSuffix.length + 1 ≤ MAX_PATH)
    (hval : (regGetValue reg rk (k ++ pythonPathSuffix) ps).1 = .err c)
    (hc : c ≠ ERROR_FILE_NOT_FOUND) :
    (scanKeys reg rk fs idx (k :: rest) ps).1 = .exitCode c := by
  have hcpy : tcscpy_s MAX_PATH k = some k := by simp [tcscpy_s, hklen]
  have hcat : tcscat_s MAX_PATH k pythonPathSuffix =
      some (k ++ pythonPathSuffix) := by simp [tcscat_s, hkcat]
  simp only [scanKeys, hcpy, hcat]
  rw [if_pos hklen]
  split
  · rename_i v heq
    rw [hval] at heq
    exact absurd heq (by simp)
  · rename_i c2 heq
    rw [hval] at heq
    injection heq with h2
    subst h2
    simp [error_code_exit, hc]

theorem tWinMain_exit {reg : Reg} {fs : String → Bool} {sys : Sys}
    {cmd : String} {c : Nat} (h : (find_winsync reg fs).1 = .exitCode c) :
    tWinMain reg fs sys cmd = (.exitCode c, (find_winsync reg fs).2) := by
  have hpair : find_winsync reg fs =
      (Outcome.exitCode c, (find_winsync reg fs).2) := by
    rw [← h]
  simp only [tWinMain]
  rw [hpair]

theorem tWinMain_msg {reg : Reg} {fs : String → Bool} {sys : Sys}
    {cmd : String} {m : String} (h : (find_winsync reg fs).1 = .msgExit m) :
    tWinMain reg fs sys cmd = (.msgExit m, (find_winsync reg fs).2) := by
  have hpair : find_winsync reg fs =
      (Outcome.msgExit m, (find_winsync reg fs).2) := by
    rw [← h]
  simp only [tWinMain]
  rw [hpair]

theorem tWinMain_abort {reg : Reg} {fs : String → Bool} {sys : Sys}
    {cmd : String} (h : (find_winsync reg fs).1 = .crtAbort) :
    tWinMain reg fs sys cmd = (.crtAbort, (find_winsync reg fs).2) := by
  have hpair : find_winsync reg fs =
      (Outcome.crtAbort, (find_winsync reg fs).2) := by
    rw [← h]
  simp only [tWinMain]
  rw [hpair]

theorem tWinMain_found_fst {reg : Reg} {fs : String → Bool} {sys : Sys}
    {cmd : String} {p : String} (h : (find_winsync reg fs).1 = .found p)
    (hlen : p.length ≤ 234) :
    (tWinMain reg fs sys cmd).1 =
      if sys.createOk then
        if sys.waitRet = WAIT_ABANDONED then .msgExit "Wait abandoned"
        else if sys.waitRet = WAIT_TIMEOUT then
          .msgExit "Timout reached, should have waited indefinately."
        else if sys.waitRet = WAIT_FAILED then .exitCode sys.waitErr
        else if sys.closeProcOk then
          if sys.closeThreadOk then
            .completed ((p ++ "python.exe") ++ " -m winsync.run") p
          else .exitCode sys.closeThreadErr
        else .exitCode sys.closeProcErr
      else .exitCode sys.createErr := by
  have hpair : find_winsync reg fs =
      (Outcome.found p, (find_winsync reg fs).2) := by
    rw [← h]
  have hl1 : ("python.exe" : String).length = 10 := rfl
  have hl2 : (" -m winsync.run" : String).length = 15 := rfl
  have hcpy : tcscpy_s MAX_PATH p = some p := by
    simp [tcscpy_s, MAX_PATH]
    omega
  have hcat1 : tcscat_s MAX_PATH p "python.exe" = some (p ++ "python.exe") := by
    simp [tcscat_s, MAX_PATH, hl1]
    omega
  have hcat2 : tcscat_s MAX_PATH (p ++ "python.exe") " -m winsync.run" =
      some ((p ++ "python.exe") ++ " -m winsync.run") := by
    simp [tcscat_s, MAX_PATH, String.length_append, hl1, hl2]
    omega
  simp only [tWinMain]
  rw [hpair]
  simp only [hcpy, hcat1, hcat2]
  by_cases h1 : sys.createOk
  · by_cases h2 : sys.waitRet = 128
    · simp [h1, h2, msg_exit, WAIT_ABANDONED, WAIT_TIMEOUT, WAIT_FAILED]
    · by_cases h3 : sys.waitRet = 258
      · simp [h1, h2, h3, msg_exit, WAIT_ABANDONED, WAIT_TIMEOUT, WAIT_FAILED]
      · by_cases h4 : sys.waitRet = 4294967295
        · simp [h1, h2, h3, h4, error_code_exit, WAIT_ABANDONED, WAIT_TIMEOUT, WAIT_FAILED]
        · by_cases h5 : sys.closeProcOk
          · by_cases h6 : sys.closeThreadOk
            · simp [h1, h2, h3, h4, h5, h6, WAIT_ABANDONED, WAIT_TIMEOUT, WAIT_FAILED]
            · simp [h1, h2, h3, h4, h5, h6, error_code_exit, WAIT_ABANDONED, WAIT_TIMEOUT, WAIT_FAILED]
          · simp [h1, h2, h3, h4, h5, error_code_exit, WAIT_ABANDONED, WAIT_TIMEOUT, WAIT_FAILED]
  · simp [h1, error_code_exit]

theorem tWinMain_found_snd {reg : Reg} {fs : String → Bool} {sys : Sys}
    {cmd : String} {p : String} (h : (find_winsync reg fs).1 = .found p)
    (hlen : p.length ≤ 234) :
    (tWinMain reg fs sys cmd).2 =
      (find_winsync reg fs).2 ++
      [Op.strCopy MAX_PATH p true,
       Op.strCat MAX_PATH p "python.exe" true,
       Op.strCat MAX_PATH (p ++ "python.exe") " -m winsync.run" true,
       Op.createProc ((p ++ "python.exe") ++ " -m winsync.run") p
         sys.createOk] ++
      (if sys.createOk then
        Op.waitOne none sys.waitRet ::
          (if sys.waitRet = WAIT_ABANDONED then
            [Op.msgBox "Wait abandoned", Op.exitProcess 255]
          else if sys.waitRet = WAIT_TIMEOUT then
            [Op.msgBox "Timout reached, should have waited indefinately.",
             Op.exitProcess 255]
          else if sys.waitRet = WAIT_FAILED then
            [Op.errorBox "WaitForSingleObject" sys.waitErr,
             Op.exitProcess sys.waitErr]
          else if sys.closeProcOk then
            if sys.closeThreadOk then [Op.closeH true, Op.closeH true]
            else [Op.closeH true, Op.closeH false,
                  Op.errorBox "CloseHandle (thread)" sys.closeThreadErr,
                  Op.exitProcess sys.closeThreadErr]
          else [Op.closeH false,
                Op.errorBox "CloseHandle (process)" sys.closeProcErr,
                Op.exitProcess sys.closeProcErr])
      else [Op.errorBox "CreateProcess" sys.createErr,
            Op.exitProcess sys.createErr]) := by
  have hpair : find_winsync reg fs =
      (Outcome.found p, (find_winsync reg fs).2) := by
    rw [← h]
  have hl1 : ("python.exe" : String).length = 10 := rfl
  have hl2 : (" -m winsync.run" : String).length = 15 := rfl
  have hcpy : tcscpy_s MAX_PATH p = some p := by
    simp [tcscpy_s, MAX_PATH]
    omega
  have hcat1 : tcscat_s MAX_PATH p "python.exe" = some (p ++ "python.exe") := by
    simp [tcscat_s, MAX_PATH, hl1]
    omega
  have hcat2 : tcscat_s MAX_PATH (p ++ "python.exe") " -m winsync.run" =
      some ((p ++ "python.exe") ++ " -m winsync.run") := by
    simp [tcscat_s, MAX_PATH, String.length_append, hl1, hl2]
    omega
  simp only [tWinMain]
  rw [hpair]
  simp only [hcpy, hcat1, hcat2]
  by_cases h1 : sys.createOk
  · by_cases h2 : sys.waitRet = 128
    · simp [h1, h2, msg_exit, WAIT_ABANDONED, WAIT_TIMEOUT, WAIT_FAILED]
    · by_cases h3 : sys.waitRet = 258
      · simp [h1, h2, h3, msg_exit, WAIT_ABANDONED, WAIT_TIMEOUT, WAIT_FAILED]
      · by_cases h4 : sys.waitRet = 4294967295
        · simp [h1, h2, h3, h4, error_code_exit, WAIT_ABANDONED, WAIT_TIMEOUT, WAIT_FAILED]
        · by_cases h5 : sys.closeProcOk
          · by_cases h6 : sys.closeThreadOk
            · simp [h1, h2, h3, h4, h5, h6, WAIT_ABANDONED, WAIT_TIMEOUT, WAIT_FAILED]
            · simp [h1, h2, h3, h4, h5, h6, error_code_exit, WAIT_ABANDONED, WAIT_TIMEOUT, WAIT_FAILED]
          · simp [h1, h2, h3, h4, h5, error_code_exit, WAIT_ABANDONED, WAIT_TIMEOUT, WAIT_FAILED]
  · simp [h1, error_code_exit]

theorem find_winsync_no_proc {reg : Reg} {fs : String → Bool} {op : Op}
    (h : op ∈ (find_winsync reg fs).2) : op.isProcOp = false :=
  (find_winsync_ops reg fs op h).2

theorem tWinMain_createProc {reg : Reg} {fs : String → Bool} {sys : Sys}
    {cmd : String} {c w : String} {b : Bool}
    (h : Op.createProc c w b ∈ (tWinMain reg fs sys cmd).2) :
    ∃ p, (find_winsync reg fs).1 = .found p ∧ w = p ∧
      c = (p ++ "python.exe") ++ " -m winsync.run" ∧ b = sys.createOk := by
  have hproc : Op.createProc c w b ∉ (find_winsync reg fs).2 := by
    intro hmem
    have := find_winsync_no_proc hmem
    simp [Op.isProcOp] at this
  simp only [tWinMain] at h
  split at h
  · rename_i c2 fOps heq
    have h2 : (find_winsync reg fs).2 = fOps := by rw [heq]
    rw [← h2] at h
    exact absurd h hproc
  · rename_i m fOps heq
    have h2 : (find_winsync reg fs).2 = fOps := by rw [heq]
    rw [← h2] at h
    exact absurd h hproc
  · rename_i fOps heq
    have h2 : (find_winsync reg fs).2 = fOps := by rw [heq]
    rw [← h2] at h
    exact absurd h hproc
  · rename_i path fOps heq
    have h2 : (find_winsync reg fs).2 = fOps := by rw [heq]
    have h1 : (find_winsync reg fs).1 = .found path := by rw [heq]
    rw [← h2] at h
    split at h
    · simp at h
      exact absurd h hproc
    · rename_i a1 heq1
      obtain ⟨hp, ha1⟩ := tcscpy_s_eq_some heq1
      subst ha1
      split at h
      · simp at h
        exact absurd h hproc
      · rename_i a2 heq2
        obtain ⟨hc1, ha2⟩ := tcscat_s_eq_some heq2
        subst ha2
        split at h
        · simp at h
          exact absurd h hproc
        · rename_i appname heq3
          obtain ⟨hc2, happ⟩ := tcscat_s_eq_some heq3
          subst happ
          split at h
          · split at h
            · simp [msg_exit] at h
              rcases h with h | h
              · exact absurd h hproc
              · exact ⟨_, h1, by simp [h.2.1], by simp [h.1], by simp [h.2.2]⟩
            · split at h
              · simp [msg_exit] at h
                rcases h with h | h
                · exact absurd h hproc
                · exact ⟨_, h1, by simp [h.2.1], by simp [h.1], by simp [h.2.2]⟩
              · split at h
                · simp [error_code_exit] at h
                  rcases h with h | h
                  · exact absurd h hproc
                  · exact ⟨_, h1, by simp [h.2.1], by simp [h.1], by simp [h.2.2]⟩
                · split at h
                  · split at h
                    · simp at h
                      rcases h with h | h
                      · exact absurd h hproc
                      · exact ⟨_, h1, by simp [h.2.1], by simp [h.1], by simp [h.2.2]⟩
                    · simp [error_code_exit] at h
                      rcases h with h | h
                      · exact absurd h hproc
                      · exact ⟨_, h1, by simp [h.2.1], by simp [h.1], by simp [h.2.2]⟩
                  · simp [error_code_exit] at h
                    rcases h with h | h
                    · exact absurd h hproc
                    · exact ⟨_, h1, by simp [h.2.1], by simp [h.1], by simp [h.2.2]⟩
          · simp [error_code_exit] at h
            rcases h with h | h
            · exact absurd h hproc
            · exact ⟨_, h1, by simp [h.2.1], by simp [h.1], by simp [h.2.2]⟩

theorem tWinMain_waitOne {reg : Reg} {fs : String → Bool} {sys : Sys}
    {cmd : String} {t : Option Nat} {r : Nat}
    (h : Op.waitOne t r ∈ (tWinMain reg fs sys cmd).2) :
    t = none ∧ r = sys.waitRet ∧ sys.createOk = true ∧
      ∃ p, (find_winsync reg fs).1 = .found p := by
  have hproc : Op.waitOne t r ∉ (find_winsync reg fs).2 := by
    intro hmem
    have := find_winsync_no_proc hmem
    simp [Op.isProcOp] at this
  simp only [tWinMain] at h
  split at h
  · rename_i c2 fOps heq
    have h2 : (find_winsync reg fs).2 = fOps := by rw [heq]
    rw [← h2] at h
    exact absurd h hproc
  · rename_i m fOps heq
    have h2 : (find_winsync reg fs).2 = fOps := by rw [heq]
    rw [← h2] at h
    exact absurd h hproc
  · rename_i fOps heq
    have h2 : (find_winsync reg fs).2 = fOps := by rw [heq]
    rw [← h2] at h
    exact absurd h hproc
  · rename_i path fOps heq
    have h2 : (find_winsync reg fs).2 = fOps := by rw [heq]
    have h1 : (find_winsync reg fs).1 = .found path := by rw [heq]
    rw [← h2] at h
    split at h
    · simp at h
      exact absurd h hproc
    · rename_i a1 heq1
      split at h
      · simp at h
        exact absurd h hproc
      · rename_i a2 heq2
        split at h
        · simp at h
          exact absurd h hproc
        · rename_i appname heq3
          split at h
          · rename_i hcreate
            split at h
            · simp [msg_exit] at h
              rcases h with h | h
              · exact absurd h hproc
              · exact ⟨by simp [h.1], by simp [h.2], hcreate, _, h1⟩
            · split at h
              · simp [msg_exit] at h
                rcases h with h | h
                · exact absurd h hproc
                · exact ⟨by simp [h.1], by simp [h.2], hcreate, _, h1⟩
              · split at h
                · simp [error_code_exit] at h
                  rcases h with h | h
                  · exact absurd h hproc
                  · exact ⟨by simp [h.1], by simp [h.2], hcreate, _, h1⟩
                · split at h
                  · split at h
                    · simp at h
                      rcases h with h | h
                      · exact absurd h hproc
                      · exact ⟨by simp [h.1], by simp [h.2], hcreate, _, h1⟩
                    · simp [error_code_exit] at h
                      rcases h with h | h
                      · exact absurd h hproc
                      · exact ⟨by simp [h.1], by simp [h.2], hcreate, _, h1⟩
                  · simp [error_code_exit] at h
                    rcases h with h | h
                    · exact absurd h hproc
                    · exact ⟨by simp [h.1], by simp [h.2], hcreate, _, h1⟩
          · simp [error_code_exit] at h
            exact absurd h hproc

theorem tWinMain_closeH {reg : Reg} {fs : String → Bool} {sys : Sys}
    {cmd : String} {b : Bool}
    (h : Op.closeH b ∈ (tWinMain reg fs sys cmd).2) :
    sys.createOk = true ∧ sys.waitRet ≠ WAIT_ABANDONED ∧
      sys.waitRet ≠ WAIT_TIMEOUT ∧ sys.waitRet ≠ WAIT_FAILED := by
  have hproc : Op.closeH b ∉ (find_winsync reg fs).2 := by
    intro hmem
    have := find_winsync_no_proc hmem
    simp [Op.isProcOp] at this
  simp only [tWinMain] at h
  split at h
  · rename_i c2 fOps heq
    have h2 : (find_winsync reg fs).2 = fOps := by rw [heq]
    rw [← h2] at h
    exact absurd h hproc
  · rename_i m fOps heq
    have h2 : (find_winsync reg fs).2 = fOps := by rw [heq]
    rw [← h2] at h
    exact absurd h hproc
  · rename_i fOps heq
    have h2 : (find_winsync reg fs).2 = fOps := by rw [heq]
    rw [← h2] at h
    exact absurd h hproc
  · rename_i path fOps heq
    have h2 : (find_winsync reg fs).2 = fOps := by rw [heq]
    rw [← h2] at h
    split at h
    · simp at h
      exact absurd h hproc
    · rename_i a1 heq1
      split at h
      · simp at h
        exact absurd h hproc
      · rename_i a2 heq2
        split at h
        · simp at h
          exact absurd h hproc
        · rename_i appname heq3
          split at h
          · rename_i hcreate
            split at h
            · simp [msg_exit] at h
              exact absurd h hproc
            · rename_i hw1
              split at h
              · simp [msg_exit] at h
                exact absurd h hproc
              · rename_i hw2
                split at h
                · simp [error_code_exit] at h
                  exact absurd h hproc
                · rename_i hw3
                  exact ⟨hcreate, hw1, hw2, hw3⟩
          · simp [error_code_exit] at h
            exact absurd h hproc

theorem tWinMain_found_abort1 {reg : Reg} {fs : String → Bool} {sys : Sys}
    {cmd : String} {p : String} (h : (find_winsync reg fs).1 = .found p)
    (hfit : p.length + 1 ≤ MAX_PATH) (hgt : 249 < p.length) :
    tWinMain reg fs sys cmd =
      (.crtAbort, (find_winsync reg fs).2 ++
        [Op.strCopy MAX_PATH p true,
         Op.strCat MAX_PATH p "python.exe" false]) := by
  have hpair : find_winsync reg fs =
      (Outcome.found p, (find_winsync reg fs).2) := by
    rw [← h]
  have hl1 : ("python.exe" : String).length = 10 := rfl
  have hcpy : tcscpy_s MAX_PATH p = some p := by
    simp [tcscpy_s, hfit]
  have hcat1 : tcscat_s MAX_PATH p "python.exe" = none := by
    simp [tcscat_s, MAX_PATH, hl1]
    omega
  simp only [tWinMain]
  rw [hpair]
  simp [hcpy, hcat1]

theorem tWinMain_found_abort2 {reg : Reg} {fs : String → Bool} {sys : Sys}
    {cmd : String} {p : String} (h : (find_winsync reg fs).1 = .found p)
    (hle : p.length ≤ 249) (hgt : 234 < p.length) :
    tWinMain reg fs sys cmd =
      (.crtAbort, (find_winsync reg fs).2 ++
        [Op.strCopy MAX_PATH p true,
         Op.strCat MAX_PATH p "python.exe" true,
         Op.strCat MAX_PATH (p ++ "python.exe") " -m winsync.run" false]) := by
  have hpair : find_winsync reg fs =
      (Outcome.found p, (find_winsync reg fs).2) := by
    rw [← h]
  have hl1 : ("python.exe" : String).length = 10 := rfl
  have hl2 : (" -m winsync.run" : String).length = 15 := rfl
  have hcpy : tcscpy_s MAX_PATH p = some p := by
    simp [tcscpy_s, MAX_PATH]
    omega
  have hcat1 : tcscat_s MAX_PATH p "python.exe" = some (p ++ "python.exe") := by
    simp [tcscat_s, MAX_PATH, hl1]
    omega
  have hcat2 : tcscat_s MAX_PATH (p ++ "python.exe") " -m winsync.run" =
      none := by
    simp [tcscat_s, MAX_PATH, String.length_append, hl1, hl2]
    omega
  simp only [tWinMain]
  rw [hpair]
  simp [hcpy, hcat1, hcat2]

theorem isWaitOp_false_of_no_proc {op : Op} (h : op.isProcOp = false) :
    op.isWaitOp = false := by
  cases op <;> simp_all [Op.isProcOp, Op.isWaitOp]

theorem isCreateOp_false_of_no_proc {op : Op} (h : op.isProcOp = false) :
    op.isCreateOp = false := by
  cases op <;> simp_all [Op.isProcOp, Op.isCreateOp]

theorem find_winsync_filter_wait {reg : Reg} {fs : String → Bool} :
    (find_winsync reg fs).2.filter Op.isWaitOp = [] := by
  rw [List.filter_eq_nil]
  intro a ha
  simp [isWaitOp_false_of_no_proc (find_winsync_no_proc ha)]

theorem find_winsync_filter_create {reg : Reg} {fs : String → Bool} :
    (find_winsync reg fs).2.filter Op.isCreateOp = [] := by
  rw [List.filter_eq_nil]
  intro a ha
  simp [isCreateOp_false_of_no_proc (find_winsync_no_proc ha)]

theorem tWinMain_counts (reg : Reg) (fs : String → Bool) (sys : Sys)
    (cmd : String) :
    ((tWinMain reg fs sys cmd).2.filter Op.isWaitOp).length ≤ 1 ∧
    ((tWinMain reg fs sys cmd).2.filter Op.isCreateOp).length ≤ 1 := by
  rcases hout : (find_winsync reg fs).1 with p | c | m
  · by_cases hfit : p.length ≤ 234
    · rw [show (tWinMain reg fs sys cmd).2 = _ from tWinMain_found_snd hout hfit]
      by_cases h1 : sys.createOk
      · by_cases h2 : sys.waitRet = 128
        · simp [List.filter_append, find_winsync_filter_wait,
                find_winsync_filter_create, Op.isWaitOp, Op.isCreateOp,
                h1, h2, WAIT_ABANDONED, WAIT_TIMEOUT, WAIT_FAILED]
        · by_cases h3 : sys.waitRet = 258
          · simp [List.filter_append, find_winsync_filter_wait,
                  find_winsync_filter_create, Op.isWaitOp, Op.isCreateOp,
                  h1, h2, h3, WAIT_ABANDONED, WAIT_TIMEOUT, WAIT_FAILED]
          · by_cases h4 : sys.waitRet = 4294967295
            · simp [List.filter_append, find_winsync_filter_wait,
                    find_winsync_filter_create, Op.isWaitOp, Op.isCreateOp,
                    h1, h2, h3, h4, WAIT_ABANDONED, WAIT_TIMEOUT, WAIT_FAILED]
            · by_cases h5 : sys.closeProcOk
              · by_cases h6 : sys.closeThreadOk
                · simp [List.filter_append, find_winsync_filter_wait,
                        find_winsync_filter_create, Op.isWaitOp, Op.isCreateOp,
                        h1, h2, h3, h4, h5, h6, WAIT_ABANDONED, WAIT_TIMEOUT,
                        WAIT_FAILED]
                · simp [List.filter_append, find_winsync_filter_wait,
                        find_winsync_filter_create, Op.isWaitOp, Op.isCreateOp,
                        h1, h2, h3, h4, h5, h6, WAIT_ABANDONED, WAIT_TIMEOUT,
                        WAIT_FAILED]
              · simp [List.filter_append, find_winsync_filter_wait,
                      find_winsync_filter_create, Op.isWaitOp, Op.isCreateOp,
                      h1, h2, h3, h4, h5, WAIT_ABANDONED, WAIT_TIMEOUT,
                      WAIT_FAILED]
      · simp [List.filter_append, find_winsync_filter_wait,
              find_winsync_filter_create, Op.isWaitOp, Op.isCreateOp, h1]
    · by_cases hfit2 : p.length ≤ 249
      · rw [show (tWinMain reg fs sys cmd).2 = _ from
          congrArg Prod.snd (tWinMain_found_abort2 hout hfit2 (by omega))]
        simp [List.filter_append, find_winsync_filter_wait,
              find_winsync_filter_create, Op.isWaitOp, Op.isCreateOp]
      · have hle : p.length + 1 ≤ MAX_PATH := by
          obtain ⟨rk, _, k, _, _, hfin⟩ := find_winsync_found hout
          exact hfin
        rw [show (tWinMain reg fs sys cmd).2 = _ from
          congrArg Prod.snd (tWinMain_found_abort1 hout hle (by omega))]
        simp [List.filter_append, find_winsync_filter_wait,
              find_winsync_filter_create, Op.isWaitOp, Op.isCreateOp]
  · rw [show (tWinMain reg fs sys cmd).2 = _ from
      congrArg Prod.snd (tWinMain_exit hout)]
    simp [find_winsync_filter_wait, find_winsync_filter_create]
  · rw [show (tWinMain reg fs sys cmd).2 = _ from
      congrArg Prod.snd (tWinMain_msg hout)]
    simp [find_winsync_filter_wait, find_winsync_filter_create]
  · rw [show (tWinMain reg fs sys cmd).2 = _ from
      congrArg Prod.snd (tWinMain_abort hout)]
    simp [find_winsync_filter_wait, find_winsync_filter_create]

theorem scanTokens_no_open (reg : Reg) (rk : String) (fs : String → Bool)
    (kn : String) :
    ∀ (toks : List String) (ps : Nat),
      ∀ op ∈ (scanTokens reg rk fs kn toks ps).2, op.openSam = none := by
  intro toks
  induction toks with
  | nil =>
    intro ps op h
    simp [scanTokens] at h
  | cons t rest ih =>
    intro ps op h
    simp only [scanTokens] at h
    split at h
    · simp at h
      simp [h, Op.openSam]
    · split at h
      · simp at h
        repeat' rcases h with h | h
        all_goals simp [Op.openSam]
      · split at h
        · split at h
          · simp at h
            repeat' rcases h with h | h
            all_goals simp [Op.openSam]
          · split at h
            · simp at h
              repeat' rcases h with h | h
              all_goals simp [Op.openSam]
            · split at h <;>
                (simp [error_code_exit] at h
                 repeat' rcases h with h | h
                 all_goals simp [Op.openSam])
        · simp at h
          rcases h with h | h | h | h
          · simp [h, Op.openSam]
          · simp [h, Op.openSam]
          · simp [h, Op.openSam]
          · exact ih ps op h

theorem scanKeys_no_open (reg : Reg) (rk : String) (fs : String → Bool) :
    ∀ (rest : List String) (idx ps : Nat),
      ∀ op ∈ (scanKeys reg rk fs idx rest ps).2, op.openSam = none := by
  intro rest
  induction rest with
  | nil =>
    intro idx ps op h
    simp only [scanKeys] at h
    split at h <;>
      (simp [msg_exit, error_code_exit] at h
       repeat' rcases h with h | h
       all_goals simp [Op.openSam])
  | cons k rest2 ih =>
    intro idx ps op h
    simp only [scanKeys] at h
    split at h
    · split at h
      · simp at h
        repeat' rcases h with h | h
        all_goals simp [Op.openSam]
      · split at h
        · simp at h
          repeat' rcases h with h | h
          all_goals simp [Op.openSam]
        · rename_i name1 heq2
          split at h
          · rename_i v heq3
            split at h <;>
              (simp at h
               repeat' rcases h with h | h
               all_goals first
                 | exact scanTokens_no_open reg rk fs _ (tcstok v)
                     (regGetValue reg rk name1 ps).2 op h
                 | exact ih (idx + 1) (regGetValue reg rk name1 ps).2 op h
                 | simp [Op.openSam])
          · split at h
            · simp at h
              repeat' rcases h with h | h
              all_goals first
                | exact ih (idx + 1) (regGetValue reg rk name1 ps).2 op h
                | simp [Op.openSam]
            · simp [error_code_exit] at h
              repeat' rcases h with h | h
              all_goals simp [Op.openSam]
    · simp [error_code_exit] at h
      repeat' rcases h with h | h
      all_goals simp [Op.openSam]

theorem find_winsync_open_key1 {reg : Reg} {fs : String → Bool} {r : Nat}
    {s : Nat} (h : Op.regOpen key1 s r ∈ (find_winsync reg fs).2) :
    reg.openKey key0 ≠ ERROR_SUCCESS := by
  intro h0
  simp only [find_winsync] at h
  rw [if_pos h0] at h
  simp at h
  rcases h with h | h
  · simp [key0, key1] at h
  · have := scanKeys_no_open reg key0 fs (reg.subkeys key0) 0 MAX_PATH
      (Op.regOpen key1 s r) h
    simp [Op.openSam] at this

theorem tWinMain_completed {reg : Reg} {fs : String → Bool} {sys : Sys}
    {cmd : String} {c w : String}
    (h : (tWinMain reg fs sys cmd).1 = .completed c w) :
    (find_winsync reg fs).1 = .found w ∧
    c = (w ++ "python.exe") ++ " -m winsync.run" ∧
    sys.createOk = true ∧ sys.waitRet ≠ WAIT_ABANDONED ∧
    sys.waitRet ≠ WAIT_TIMEOUT ∧ sys.waitRet ≠ WAIT_FAILED ∧
    sys.closeProcOk = true ∧ sys.closeThreadOk = true := by
  rcases hout : (find_winsync reg fs).1 with p | cc | m
  · by_cases hfit : p.length ≤ 234
    · have heq := @tWinMain_found_fst reg fs sys cmd p hout hfit
      rw [heq] at h
      by_cases h1 : sys.createOk
      · by_cases h2 : sys.waitRet = 128
        · simp [h1, h2, WAIT_ABANDONED] at h
        · by_cases h3 : sys.waitRet = 258
          · simp [h1, h2, h3, WAIT_ABANDONED, WAIT_TIMEOUT] at h
          · by_cases h4 : sys.waitRet = 4294967295
            · simp [h1, h2, h3, h4, WAIT_ABANDONED, WAIT_TIMEOUT,
                    WAIT_FAILED] at h
            · by_cases h5 : sys.closeProcOk
              · by_cases h6 : sys.closeThreadOk
                · simp [h1, h2, h3, h4, h5, h6, WAIT_ABANDONED, WAIT_TIMEOUT,
                        WAIT_FAILED] at h
                  obtain ⟨hc, hw⟩ := h
                  refine ⟨by simp [hout, hw], by rw [← hc, hw], h1, ?_, ?_, ?_,
                          h5, h6⟩ <;>
                    simp [WAIT_ABANDONED, WAIT_TIMEOUT, WAIT_FAILED,
                          h2, h3, h4]
                · simp [h1, h2, h3, h4, h5, h6, WAIT_ABANDONED, WAIT_TIMEOUT,
                        WAIT_FAILED] at h
              · simp [h1, h2, h3, h4, h5, WAIT_ABANDONED, WAIT_TIMEOUT,
                      WAIT_FAILED] at h
      · simp [h1] at h
    · by_cases hfit2 : p.length ≤ 249
      · have heq := @tWinMain_found_abort2 reg fs sys cmd p hout hfit2
          (by omega)
        rw [congrArg Prod.fst heq] at h
        simp at h
      · have hle : p.length + 1 ≤ MAX_PATH := by
          obtain ⟨rk, _, k, _, _, hfin⟩ := find_winsync_found hout
          exact hfin
        have heq := @tWinMain_found_abort1 reg fs sys cmd p hout hle
          (by omega)
        rw [congrArg Prod.fst heq] at h
        simp at h
  · rw [congrArg Prod.fst (@tWinMain_exit reg fs sys cmd cc hout)] at h
    simp at h
  · rw [congrArg Prod.fst (@tWinMain_msg reg fs sys cmd m hout)] at h
    simp at h
  · rw [congrArg Prod.fst (@tWinMain_abort reg fs sys cmd hout)] at h
    simp at h

theorem tWinMain_locate_first (reg : Reg) (fs : String → Bool) (sys : Sys)
    (cmd : String) :
    ∃ rest, (tWinMain reg fs sys cmd).2 = (find_winsync reg fs).2 ++ rest := by
  rcases hout : (find_winsync reg fs).1 with p | cc | m
  · by_cases hfit : p.length ≤ 234
    · exact ⟨_, by rw [tWinMain_found_snd hout hfit, List.append_assoc]⟩
    · by_cases hfit2 : p.length ≤ 249
      · exact ⟨_, congrArg Prod.snd (tWinMain_found_abort2 hout hfit2 (by omega))⟩
      · have hle : p.length + 1 ≤ MAX_PATH := by
          obtain ⟨rk, _, k, _, _, hfin⟩ := find_winsync_found hout
          exact hfin
        exact ⟨_, congrArg Prod.snd (tWinMain_found_abort1 hout hle (by omega))⟩
  · exact ⟨[], by rw [congrArg Prod.snd (tWinMain_exit hout)]; simp⟩
  · exact ⟨[], by rw [congrArg Prod.snd (tWinMain_msg hout)]; simp⟩
  · exact ⟨[], by rw [congrArg Prod.snd (tWinMain_abort hout)]; simp⟩

theorem tWinMain_waitOne_fits {reg : Reg} {fs : String → Bool} {sys : Sys}
    {cmd : String} {t : Option Nat} {r : Nat}
    (h : Op.waitOne t r ∈ (tWinMain reg fs sys cmd).2) :
    ∃ p, (find_winsync reg fs).1 = .found p ∧ p.length ≤ 234 := by
  obtain ⟨ht, hr, hcr, p, hp⟩ := tWinMain_waitOne h
  refine ⟨p, hp, ?_⟩
  by_contra hfit
  have hproc : Op.waitOne t r ∉ (find_winsync reg fs).2 := by
    intro hmem
    have := find_winsync_no_proc hmem
    simp [Op.isProcOp] at this
  by_cases hfit2 : p.length ≤ 249
  · have heq := @tWinMain_found_abort2 reg fs sys cmd p hp hfit2
      (by omega)
    rw [congrArg Prod.snd heq] at h
    simp at h
    exact absurd h hproc
  · have hle : p.length + 1 ≤ MAX_PATH := by
      obtain ⟨rk, _, k, _, _, hfin⟩ := find_winsync_found hp
      exact hfin
    have heq := @tWinMain_found_abort1 reg fs sys cmd p hp hle
      (by omega)
    rw [congrArg Prod.snd heq] at h
    simp at h
    exact absurd h hproc

theorem applyOp_of_not_write {w : World} {op : Op} (h : op.isWrite = false) :
    applyOp w op = w := by
  cases op <;> simp_all [Op.isWrite, applyOp]

theorem foldl_applyOp_of_not_write {l : List Op}
    (h : ∀ op ∈ l, op.isWrite = false) :
    ∀ w : World, l.foldl applyOp w = w := by
  induction l with
  | nil => intro w; rfl
  | cons a l ih =>
    intro w
    rw [List.foldl_cons, applyOp_of_not_write (h a (by simp))]
    exact ih (fun op hm => h op (by simp [hm])) w

/-! Claim theorems. -/

set_option maxRecDepth 10000

/-- C1: find_winsync scans the enumerated subkeys of the opened
PythonCore root in order, reads each subkey's PythonPath default value
(skipping reads failing with error 2), splits it on semicolons, and
probes each token extended with the site-packages winsync suffix on
disk; whenever it returns normally, the out parameter holds the
InstallPath default value of the first enumerated subkey containing a
winsync install. -/
theorem C1_returns_first_install (reg : Reg) (fs : String → Bool)
    (p : String) (h : (find_winsync reg fs).1 = .found p) :
    ∃ rk, ((reg.openKey key0 = ERROR_SUCCESS ∧ rk = key0) ∨
           (reg.openKey key0 ≠ ERROR_SUCCESS ∧
            reg.openKey key1 = ERROR_SUCCESS ∧ rk = key1)) ∧
      ∃ k, firstWinsyncKey reg rk fs = some k ∧
        reg.getValue rk (k ++ installPathSuffix) = .ok p := by
  obtain ⟨rk, hrk, k, h1, h2, _⟩ := find_winsync_found h
  exact ⟨rk, hrk, k, h1, h2⟩

/-- Witness for C1 on a concrete registry holding one install. -/
theorem C1_returns_first_install_witness :
    ∃ rk, ((wReg.openKey key0 = ERROR_SUCCESS ∧ rk = key0) ∨
           (wReg.openKey key0 ≠ ERROR_SUCCESS ∧
            wReg.openKey key1 = ERROR_SUCCESS ∧ rk = key1)) ∧
      ∃ k, firstWinsyncKey wReg rk wFs = some k ∧
        wReg.getValue rk (k ++ installPathSuffix) = .ok "C:\\Py\\" :=
  C1_returns_first_install wReg wFs "C:\\Py\\" rfl

/-- C2 as stated is false on the code: here the first RegOpenKeyEx
call fails with error 5, yet the run recovers through the Wow6432Node
fallback and returns normally, with no message box and no ExitProcess
call anywhere in the trace. -/
theorem C2_counterexample :
    fbReg.openKey key0 = 5 ∧ (5 : Nat) ≠ ERROR_SUCCESS ∧
    (find_winsync fbReg wFs).1 = .found "C:\\Py\\" ∧
    (find_winsync fbReg wFs).2.filter
      (fun op => match op with
        | Op.exitProcess _ => true
        | Op.errorBox _ _ => true
        | Op.msgBox _ => true
        | _ => false) = [] := by
  exact ⟨rfl, by decide, rfl, rfl⟩

/-- C2 (amended): every OS-call failure terminates the process with a
message box and an ExitProcess call, except the recoveries coded into
the scan: a failed open of the primary key falls back to the
Wow6432Node key, a PythonPath read failing with error 2 skips that
subkey, a GetFileAttributes miss moves on to the next token, and
enumeration ending with ERROR_NO_MORE_ITEMS ends the scan through the
terminal not-found message box. -/
theorem C2_failures_terminal (reg : Reg) (fs : String → Bool) (sys : Sys)
    (cmd : String) :
    (reg.openKey key0 ≠ ERROR_SUCCESS → reg.openKey key1 ≠ ERROR_SUCCESS →
      find_winsync reg fs = (.exitCode (reg.openKey key1),
        [Op.regOpen key0 samDesired (reg.openKey key0),
         Op.regOpen key1 samDesired (reg.openKey key1),
         Op.errorBox "RegOpenKeyEx" (reg.openKey key1),
         Op.exitProcess (reg.openKey key1)])) ∧
    (reg.openKey key0 ≠ ERROR_SUCCESS → reg.openKey key1 = ERROR_SUCCESS →
      (find_winsync reg fs).1 =
        (scanKeys reg key1 fs 0 (reg.subkeys key1) MAX_PATH).1) ∧
    (∀ rk idx ps k rest, k.length + 1 ≤ MAX_PATH →
      k.length + pythonPathSuffix.length + 1 ≤ MAX_PATH →
      reg.getValue rk (k ++ pythonPathSuffix) = .err ERROR_FILE_NOT_FOUND →
      (scanKeys reg rk fs idx (k :: rest) ps).1 =
        (scanKeys reg rk fs (idx + 1) rest ps).1) ∧
    (∀ rk idx ps k rest c, k.length + 1 ≤ MAX_PATH →
      k.length + pythonPathSuffix.length + 1 ≤ MAX_PATH →
      (regGetValue reg rk (k ++ pythonPathSuffix) ps).1 = .err c →
      c ≠ ERROR_FILE_NOT_FOUND →
      (scanKeys reg rk fs idx (k :: rest) ps).1 = .exitCode c) ∧
    (∀ rk kn token rest ps, token.length + 1 ≤ MAX_PATH →
      token.length + winsyncSuffix.length + 1 ≤ MAX_PATH →
      fs (token ++ winsyncSuffix) = false →
      (scanTokens reg rk fs kn (token :: rest) ps).1 =
        (scanTokens reg rk fs kn rest ps).1) ∧
    (∀ rk idx ps, reg.endEnumCode rk = ERROR_NO_MORE_ITEMS →
      scanKeys reg rk fs idx [] ps =
        (.msgExit "Could not find a WinSync install",
         [Op.regEnum idx MAX_PATH (.err (reg.endEnumCode rk)),
          Op.msgBox "Could not find a WinSync install",
          Op.exitProcess 255])) ∧
    (∀ p, (find_winsync reg fs).1 = .found p → p.length ≤ 234 →
      (sys.createOk = false →
        (tWinMain reg fs sys cmd).1 = .exitCode sys.createErr) ∧
      (sys.createOk = true → sys.waitRet = WAIT_FAILED →
        (tWinMain reg fs sys cmd).1 = .exitCode sys.waitErr) ∧
      (sys.createOk = true → sys.waitRet = WAIT_OBJECT_0 →
        sys.closeProcOk = false →
        (tWinMain reg fs sys cmd).1 = .exitCode sys.closeProcErr) ∧
      (sys.createOk = true → sys.waitRet = WAIT_OBJECT_0 →
        sys.closeProcOk = true → sys.closeThreadOk = false →
        (tWinMain reg fs sys cmd).1 = .exitCode sys.closeThreadErr)) := by
  refine ⟨?_, ?_, ?_, ?_, ?_, ?_, ?_⟩
  · intro h0 h1
    simp [find_winsync, error_code_exit, h0, h1]
  · intro h0 h1
    simp [find_winsync, h0, h1]
  · intro rk idx ps k rest h1 h2 h3
    rw [scanKeys_cons_skip2 h1 h2 h3]
  · intro rk idx ps k rest c h1 h2 h3 h4
    exact scanKeys_cons_errOther h1 h2 h3 h4
  · intro rk kn token rest ps h1 h2 hf
    simp [scanTokens, tcscpy_s, tcscat_s, h1, h2, hf]
  · intro rk idx ps h
    exact scanKeys_nil_noMore h
  · intro p hp hfit
    refine ⟨?_, ?_, ?_, ?_⟩
    · intro hc
      rw [tWinMain_found_fst hp hfit]
      simp [hc]
    · intro hc hwf
      rw [tWinMain_found_fst hp hfit]
      simp [hc, hwf, WAIT_ABANDONED, WAIT_TIMEOUT, WAIT_FAILED]
    · intro hc hw0 hcp
      rw [tWinMain_found_fst hp hfit]
      simp [hc, hw0, hcp, WAIT_OBJECT_0, WAIT_ABANDONED, WAIT_TIMEOUT,
            WAIT_FAILED]
    · intro hc hw0 hcp hct
      rw [tWinMain_found_fst hp hfit]
      simp [hc, hw0, hcp, hct, WAIT_OBJECT_0, WAIT_ABANDONED, WAIT_TIMEOUT,
            WAIT_FAILED]

/-- Witness for the amended C2: with both opens failing the run shows
the RegOpenKeyEx error box and exits with the second open's code. -/
theorem C2_failures_terminal_witness :
    find_winsync deadReg noFs = (.exitCode 2,
      [Op.regOpen key0 samDesired 5, Op.regOpen key1 samDesired 2,
       Op.errorBox "RegOpenKeyEx" 2, Op.exitProcess 2]) := by
  have h := (C2_failures_terminal deadReg noFs okSys "").1
    (by decide) (by decide)
  exact h

/-- C3: the command line handed to CreateProcess is exactly the found
install path concatenated, with no separator, with the string
"python.exe" and then the single fixed argument " -m winsync.run";
the child's working directory is that same install path; and the
launcher's own command-line argument has no effect on any of it. -/
theorem C3_fixed_command_line (reg : Reg) (fs : String → Bool) (sys : Sys)
    (cmdA cmdB : String) :
    tWinMain reg fs sys cmdA = tWinMain reg fs sys cmdB ∧
    (∀ c w b, Op.createProc c w b ∈ (tWinMain reg fs sys cmdA).2 →
      ∃ p, (find_winsync reg fs).1 = .found p ∧ w = p ∧
        c = (p ++ "python.exe") ++ " -m winsync.run") ∧
    (∀ c w, (tWinMain reg fs sys cmdA).1 = .completed c w →
      (find_winsync reg fs).1 = .found w ∧
      c = (w ++ "python.exe") ++ " -m winsync.run") := by
  refine ⟨rfl, ?_, ?_⟩
  · intro c w b h
    obtain ⟨p, h1, h2, h3, _⟩ := tWinMain_createProc h
    exact ⟨p, h1, h2, h3⟩
  · intro c w h
    obtain ⟨h1, h2, _⟩ := tWinMain_completed h
    exact ⟨h1, h2⟩

/-- Witness for C3: on a concrete run the completed result carries
exactly the concatenated command line and the install path. -/
theorem C3_fixed_command_line_witness :
    (find_winsync wReg wFs).1 = .found "C:\\Py\\" ∧
    "C:\\Py\\python.exe -m winsync.run" =
      ("C:\\Py\\" ++ "python.exe") ++ " -m winsync.run" :=
  (C3_fixed_command_line wReg wFs okSys "" "ignored").2.2
    "C:\\Py\\python.exe -m winsync.run" "C:\\Py\\" rfl

/-- C4: every key the scan opens is one of the two fixed PythonCore
locations with the fixed access rights; the Wow6432Node key is opened
only when the primary open failed; a successful primary open leads
straight into the scan of that root; and when both opens fail the run
shows the RegOpenKeyEx error box and exits without scanning. -/
theorem C4_two_fixed_keys (reg : Reg) (fs : String → Bool) :
    (∀ k s r, Op.regOpen k s r ∈ (find_winsync reg fs).2 →
      (k = key0 ∨ k = key1) ∧ s = samDesired) ∧
    (reg.openKey key0 = ERROR_SUCCESS →
      find_winsync reg fs =
        ((scanKeys reg key0 fs 0 (reg.subkeys key0) MAX_PATH).1,
         Op.regOpen key0 samDesired (reg.openKey key0) ::
           (scanKeys reg key0 fs 0 (reg.subkeys key0) MAX_PATH).2)) ∧
    (∀ s r, Op.regOpen key1 s r ∈ (find_winsync reg fs).2 →
      reg.openKey key0 ≠ ERROR_SUCCESS) ∧
    (reg.openKey key0 ≠ ERROR_SUCCESS → reg.openKey key1 ≠ ERROR_SUCCESS →
      find_winsync reg fs = (.exitCode (reg.openKey key1),
        [Op.regOpen key0 samDesired (reg.openKey key0),
         Op.regOpen key1 samDesired (reg.openKey key1),
         Op.errorBox "RegOpenKeyEx" (reg.openKey key1),
         Op.exitProcess (reg.openKey key1)])) := by
  refine ⟨?_, ?_, ?_, ?_⟩
  · intro k s r h
    exact (find_winsync_ops reg fs _ h).1.2.1 k s r rfl
  · intro h0
    simp [find_winsync, h0]
  · intro s r h
    exact find_winsync_open_key1 h
  · intro h0 h1
    simp [find_winsync, error_code_exit, h0, h1]

/-- Witness for C4: the fallback key was opened in this run, so the
primary open must have failed. -/
theorem C4_two_fixed_keys_witness : fbReg.openKey key0 ≠ ERROR_SUCCESS :=
  (C4_two_fixed_keys fbReg wFs).2.2.1 samDesired 0 (by decide)

/-- C5: error_code_exit passes the failing call's Windows error code
to ExitProcess, while the descriptive failures (enumeration exhausted
with ERROR_NO_MORE_ITEMS, WAIT_ABANDONED, WAIT_TIMEOUT) exit with
status 255 through msg_exit; WAIT_FAILED and CreateProcess failure
exit with the corresponding Windows error code. -/
theorem C5_exit_status (reg : Reg) (fs : String → Bool) (sys : Sys)
    (cmd : String) :
    (∀ fn c, error_code_exit fn c =
      (.exitCode c, [Op.errorBox fn c, Op.exitProcess c])) ∧
    (∀ m, msg_exit m = (.msgExit m, [Op.msgBox m, Op.exitProcess 255])) ∧
    (∀ c, exitStatus (MainRes.exitCode c) = some c) ∧
    (∀ m, exitStatus (MainRes.msgExit m) = some 255) ∧
    (∀ rk idx ps, reg.endEnumCode rk = ERROR_NO_MORE_ITEMS →
      (scanKeys reg rk fs idx [] ps).1 =
        .msgExit "Could not find a WinSync install" ∧
      Op.exitProcess 255 ∈ (scanKeys reg rk fs idx [] ps).2) ∧
    (∀ p, (find_winsync reg fs).1 = .found p → p.length ≤ 234 →
      sys.createOk = true →
      (sys.waitRet = WAIT_ABANDONED →
        (tWinMain reg fs sys cmd).1 = .msgExit "Wait abandoned" ∧
        exitStatus (tWinMain reg fs sys cmd).1 = some 255) ∧
      (sys.waitRet = WAIT_TIMEOUT →
        (tWinMain reg fs sys cmd).1 =
          .msgExit "Timout reached, should have waited indefinately." ∧
        exitStatus (tWinMain reg fs sys cmd).1 = some 255) ∧
      (sys.waitRet = WAIT_FAILED →
        exitStatus (tWinMain reg fs sys cmd).1 = some sys.waitErr)) ∧
    (∀ p, (find_winsync reg fs).1 = .found p → p.length ≤ 234 →
      sys.createOk = false →
      exitStatus (tWinMain reg fs sys cmd).1 = some sys.createErr) := by
  refine ⟨fun fn c => rfl, fun m => rfl, fun c => rfl, fun m => rfl,
          ?_, ?_, ?_⟩
  · intro rk idx ps h
    rw [scanKeys_nil_noMore h]
    simp
  · intro p hp hfit hc
    refine ⟨?_, ?_, ?_⟩
    · intro hw
      rw [tWinMain_found_fst hp hfit]
      simp [hc, hw, exitStatus]
    · intro hw
      rw [tWinMain_found_fst hp hfit]
      simp [hc, hw, exitStatus, WAIT_ABANDONED, WAIT_TIMEOUT]
    · intro hw
      rw [tWinMain_found_fst hp hfit]
      simp [hc, hw, exitStatus, WAIT_ABANDONED, WAIT_TIMEOUT, WAIT_FAILED]
  · intro p hp hfit hc
    rw [tWinMain_found_fst hp hfit]
    simp [hc, exitStatus]

/-- Witness for C5: an abandoned wait exits with status 255 on a
concrete run. -/
theorem C5_exit_status_witness :
    (tWinMain wReg wFs abandonSys "").1 = .msgExit "Wait abandoned" ∧
    exitStatus (tWinMain wReg wFs abandonSys "").1 = some 255 :=
  ((C5_exit_status wReg wFs abandonSys "").2.2.2.2.2.1 "C:\\Py\\" rfl
    (by decide) rfl).1 rfl

/-- C6: the run is one sequential flow: the trace begins with the
locate phase, the spawned command line and working directory are built
from the located path, at most one CreateProcess and one
WaitForSingleObject happen, the only wait is a blocking INFINITE wait
issued after a successful spawn, handles are closed only when the wait
returns WAIT_OBJECT_0, and an abnormal wait result exits before any
handle is closed. -/
theorem C6_sequential_flow (reg : Reg) (fs : String → Bool) (sys : Sys)
    (cmd : String)
    (hw : sys.waitRet = WAIT_OBJECT_0 ∨ sys.waitRet = WAIT_ABANDONED ∨
          sys.waitRet = WAIT_TIMEOUT ∨ sys.waitRet = WAIT_FAILED) :
    (∃ rest, (tWinMain reg fs sys cmd).2 = (find_winsync reg fs).2 ++ rest) ∧
    (∀ c w b, Op.createProc c w b ∈ (tWinMain reg fs sys cmd).2 →
      ∃ p, (find_winsync reg fs).1 = .found p ∧ w = p ∧
        c = (p ++ "python.exe") ++ " -m winsync.run") ∧
    (∀ t r, Op.waitOne t r ∈ (tWinMain reg fs sys cmd).2 →
      t = none ∧ r = sys.waitRet ∧ sys.createOk = true) ∧
    ((tWinMain reg fs sys cmd).2.filter Op.isCreateOp).length ≤ 1 ∧
    ((tWinMain reg fs sys cmd).2.filter Op.isWaitOp).length ≤ 1 ∧
    (∀ b, Op.closeH b ∈ (tWinMain reg fs sys cmd).2 →
      sys.waitRet = WAIT_OBJECT_0) ∧
    ((sys.waitRet = WAIT_ABANDONED ∨ sys.waitRet = WAIT_TIMEOUT ∨
      sys.waitRet = WAIT_FAILED) →
      (∀ b, Op.closeH b ∉ (tWinMain reg fs sys cmd).2) ∧
      (∀ t r, Op.waitOne t r ∈ (tWinMain reg fs sys cmd).2 →
        ∃ c, exitStatus (tWinMain reg fs sys cmd).1 = some c)) := by
  refine ⟨tWinMain_locate_first reg fs sys cmd, ?_, ?_,
          (tWinMain_counts reg fs sys cmd).2,
          (tWinMain_counts reg fs sys cmd).1, ?_, ?_⟩
  · intro c w b h
    obtain ⟨p, h1, h2, h3, _⟩ := tWinMain_createProc h
    exact ⟨p, h1, h2, h3⟩
  · intro t r h
    obtain ⟨h1, h2, h3, _⟩ := tWinMain_waitOne h
    exact ⟨h1, h2, h3⟩
  · intro b h
    obtain ⟨_, h128, h258, hfail⟩ := tWinMain_closeH h
    rcases hw with h | h | h | h
    · exact h
    · exact absurd h h128
    · exact absurd h h258
    · exact absurd h hfail
  · intro hbad
    constructor
    · intro b hb
      obtain ⟨_, h128, h258, hfail⟩ := tWinMain_closeH hb
      rcases hbad with h | h | h
      · exact absurd h h128
      · exact absurd h h258
      · exact absurd h hfail
    · intro t r hmem
      obtain ⟨p, hp, hfit⟩ := tWinMain_waitOne_fits hmem
      obtain ⟨_, _, hcr, _⟩ := tWinMain_waitOne hmem
      have heq := @tWinMain_found_fst reg fs sys cmd p hp hfit
      rcases hbad with h | h | h
      · refine ⟨255, ?_⟩
        rw [heq]
        simp [hcr, h, exitStatus]
      · refine ⟨255, ?_⟩
        rw [heq]
        simp [hcr, h, exitStatus, WAIT_ABANDONED, WAIT_TIMEOUT]
      · refine ⟨sys.waitErr, ?_⟩
        rw [heq]
        simp [hcr, h, exitStatus, WAIT_ABANDONED, WAIT_TIMEOUT, WAIT_FAILED]

/-- Witness for C6: the only wait in a concrete successful run is the
blocking INFINITE wait whose result is the wait return value. -/
theorem C6_sequential_flow_witness :
    (none : Option Nat) = none ∧ (0 : Nat) = okSys.waitRet ∧
    okSys.createOk = true :=
  (C6_sequential_flow wReg wFs okSys "" (Or.inl rfl)).2.2.1 none 0 (by decide)

/-- C7: the launcher never changes persistent state: nothing in any
trace is a write, every registry open requests exactly
KEY_READ or KEY_ENUMERATE_SUB_KEYS combined, and replaying a trace
over any abstract registry-and-filesystem state leaves it unchanged. -/
theorem C7_read_only (reg : Reg) (fs : String → Bool) (sys : Sys)
    (cmd : String) :
    (∀ op ∈ (tWinMain reg fs sys cmd).2, op.isWrite = false) ∧
    (∀ k s r, Op.regOpen k s r ∈ (tWinMain reg fs sys cmd).2 →
      s = KEY_READ ||| KEY_ENUMERATE_SUB_KEYS) ∧
    (∀ w : World, (tWinMain reg fs sys cmd).2.foldl applyOp w = w) := by
  refine ⟨?_, ?_, ?_⟩
  · intro op h
    exact (tWinMain_ops reg fs sys cmd op h).1
  · intro k s r h
    have hs := ((tWinMain_ops reg fs sys cmd _ h).2.1 k s r rfl).2
    simpa [samDesired] using hs
  · intro w
    exact foldl_applyOp_of_not_write
      (fun op h => (tWinMain_ops reg fs sys cmd op h).1) w

/-- Witness for C7: replaying a concrete run over the empty abstract
state leaves it unchanged. -/
theorem C7_read_only_witness :
    (tWinMain wReg wFs okSys "").2.foldl applyOp ⟨[], []⟩ = ⟨[], []⟩ :=
  (C7_read_only wReg wFs okSys "").2.2 ⟨[], []⟩

/-- C8: every string stored into one of the fixed-size path buffers
during any run fits in MAX_PATH characters including the terminator,
every capacity offered to the OS is at most MAX_PATH, every bounded
copy and concatenation uses exactly capacity MAX_PATH, and the bounded
operations reject (rather than overflow on) any string that would
exceed the capacity. -/
theorem C8_buffer_bounds (reg : Reg) (fs : String → Bool) (sys : Sys)
    (cmd : String) :
    (∀ op ∈ (tWinMain reg fs sys cmd).2,
      (∀ s ∈ op.stored, s.length + 1 ≤ MAX_PATH) ∧
      (∀ c, op.cap = some c → c ≤ MAX_PATH) ∧ op.copyCapFull) ∧
    (∀ cap s, tcscpy_s cap s = none ↔ ¬ s.length + 1 ≤ cap) ∧
    (∀ cap d s, tcscat_s cap d s = none ↔ ¬ d.length + s.length + 1 ≤ cap) := by
  refine ⟨?_, ?_, ?_⟩
  · intro op h
    have ho := tWinMain_ops reg fs sys cmd op h
    exact ⟨ho.2.2.1, ho.2.2.2.1, ho.2.2.2.2⟩
  · intro cap s
    constructor
    · exact tcscpy_s_eq_none
    · intro h
      simp [tcscpy_s, h]
  · intro cap d s
    constructor
    · exact tcscat_s_eq_none
    · intro h
      simp [tcscat_s, h]

/-- Witness for C8: the InstallPath read of a concrete run stores a
string that fits, offers a capacity of at most MAX_PATH, and is not a
bounded copy. -/
theorem C8_buffer_bounds_witness :
    (∀ s ∈ (Op.regGetV ("2.7" ++ installPathSuffix) 12
        (.ok "C:\\Py\\")).stored, s.length + 1 ≤ MAX_PATH) ∧
    (∀ c, (Op.regGetV ("2.7" ++ installPathSuffix) 12
        (.ok "C:\\Py\\")).cap = some c → c ≤ MAX_PATH) ∧
    (Op.regGetV ("2.7" ++ installPathSuffix) 12
        (.ok "C:\\Py\\")).copyCapFull :=
  (C8_buffer_bounds wReg wFs okSys "").1
    (Op.regGetV ("2.7" ++ installPathSuffix) 12 (.ok "C:\\Py\\")) (by decide)

/-- C9: the claim that path_size is restored to MAX_PATH between
reads is refuted by the code, and the program's own purpose (find the
install) breaks on this input: the first PythonPath read writes 7 back
into path_size, so the second PythonPath read is offered capacity 7
instead of MAX_PATH, fails with ERROR_MORE_DATA, and the launcher
exits with code 234 even though subkey 3.4 holds a winsync install. -/
theorem C9_stale_path_size :
    (find_winsync bugReg bugFs).1 = .exitCode ERROR_MORE_DATA ∧
    Op.regGetV ("3.4" ++ pythonPathSuffix) 7 (.err ERROR_MORE_DATA) ∈
      (find_winsync bugReg bugFs).2 ∧
    (7 : Nat) ≠ MAX_PATH ∧
    keyHasWinsync bugReg key0 bugFs "3.4" = true := by
  exact ⟨rfl, by decide, by decide, rfl⟩

/-- C10 as stated is false on the code: on a registry whose only
subkey name is 250 characters long, find_winsync neither returns an
install nor terminates through msg_exit or error_code_exit; the
bounded concatenation of the PythonPath suffix rejects the name and
the CRT invalid parameter handler terminates the process instead. -/
theorem C10_counterexample :
    ¬ ((∃ p, (find_winsync longReg noFs).1 = .found p) ∨
       (∃ c, (find_winsync longReg noFs).1 = .exitCode c) ∨
       (∃ m, (find_winsync longReg noFs).1 = .msgExit m)) := by
  have h : (find_winsync longReg noFs).1 = .crtAbort := by decide
  rw [h]
  rintro (⟨p, hp⟩ | ⟨c, hc⟩ | ⟨m, hm⟩) <;> simp_all

/-- C10 (amended): find_winsync returns to its caller only on success
with the out parameter holding an enumerated subkey's InstallPath
value; otherwise the process terminates inside it, through msg_exit,
error_code_exit, or the CRT invalid parameter handler invoked by a
bounded string operation whose source exceeds the buffer; hence the
command line is only ever built from a returned install path. -/
theorem C10_success_or_terminate (reg : Reg) (fs : String → Bool)
    (sys : Sys) (cmd : String) :
    ((∃ p, (find_winsync reg fs).1 = .found p ∧
       ∃ rk k, (rk = key0 ∨ rk = key1) ∧ k ∈ reg.subkeys rk ∧
         reg.getValue rk (k ++ installPathSuffix) = .ok p) ∨
     (∃ c, (find_winsync reg fs).1 = .exitCode c) ∨
     (∃ m, (find_winsync reg fs).1 = .msgExit m) ∨
     (find_winsync reg fs).1 = .crtAbort) ∧
    (∀ c w b, Op.createProc c w b ∈ (tWinMain reg fs sys cmd).2 →
      ∃ p, (find_winsync reg fs).1 = .found p ∧ w = p) := by
  constructor
  · rcases hout : (find_winsync reg fs).1 with p | c | m
    · left
      obtain ⟨rk, hrk, k, h1, h2, _⟩ := find_winsync_found hout
      refine ⟨p, rfl, rk, k, ?_, ?_, h2⟩
      · rcases hrk with ⟨_, h⟩ | ⟨_, _, h⟩ <;> simp [h]
      · exact List.mem_of_find?_eq_some
          (by simpa [firstWinsyncKey] using h1)
    · right; left; exact ⟨c, rfl⟩
    · right; right; left; exact ⟨m, rfl⟩
    · right; right; right; rfl
  · intro c w b h
    obtain ⟨p, h1, h2, _⟩ := tWinMain_createProc h
    exact ⟨p, h1, h2⟩

/-- Witness for the amended C10: in a concrete run the spawned working
directory is exactly the path find_winsync returned. -/
theorem C10_success_or_terminate_witness :
    ∃ p, (find_winsync wReg wFs).1 = .found p ∧ "C:\\Py\\" = p :=
  (C10_success_or_terminate wReg wFs okSys "").2
    "C:\\Py\\python.exe -m winsync.run" "C:\\Py\\" true (by decide)

end WinsyncLoader
